import Mathlib

/-!
Verification development for the Seller-Block marketplace contracts.

Shallow embedding of the Solidity sources under `contracts/`:
`AuctionModule.sol`, `RaffleModule.sol`, `MarketplaceRegistry.sol`,
plus the `EscrowVault` (credit-ledger version) modelled from the spec
where noted.  Addresses and 256-bit words are modelled as `Nat`
(Solidity 0.8 uses checked arithmetic, so overflow is modelled as a
revert guard against the type's maximum, never as wrap-around).
Each external function becomes a pure function on an explicit state,
returning `Except` to model reverts; a revert leaves the state
untouched by construction.  ERC20/native transfers that leave the
contract are assumed to succeed (their failure would only add more
revert cases); `nonReentrant` guards are no-ops in this sequential
model.
-/

abbrev Addr := Nat

def U32MAX : Nat := 2 ^ 32 - 1

def U64MAX : Nat := 2 ^ 64 - 1

def U256MAX : Nat := 2 ^ 256 - 1

/-- Pointwise update of a map modelled as a function. -/
def upd {β : Type} (f : Nat → β) (x : Nat) (v : β) : Nat → β :=
  fun y => if y = x then v else f y

theorem upd_same {β : Type} (f : Nat → β) (x : Nat) (v : β) : upd f x v x = v := by
  simp [upd]

theorem upd_other {β : Type} (f : Nat → β) (x y : Nat) (v : β) (h : y ≠ x) :
    upd f x v y = f y := by
  simp [upd, h]

/-! ## AuctionModule (from `contracts/AuctionModule.sol`) -/

/-- Errors declared by `AuctionModule.sol`; `Overflow` stands for the
checked-arithmetic panic of Solidity 0.8. -/
inductive AErr where
  | AuctionAlreadyExists
  | AuctionNotFound
  | AuctionAlreadyClosed
  | AuctionNotActive
  | LowBid
  | ZeroAddress
  | InvalidTimes
  | AuctionNotEnded
  | InvalidValue
  | NothingToWithdraw
  | ProceedsAlreadyClaimed
  | AuctionIsCanceled
  | Overflow
deriving Repr, DecidableEq

/-- The `Auction` struct of `AuctionModule.sol` (field order preserved). -/
structure Auction where
  token : Addr
  startTime : Nat
  endTime : Nat
  extensionWindow : Nat
  extensionSeconds : Nat
  reservePrice : Nat
  minBidIncrement : Nat
  highestBidder : Addr
  highestBid : Nat
  active : Bool
  canceled : Bool
  closed : Bool
  proceedsClaimed : Bool
  winner : Addr
  winningBid : Nat
deriving Repr, DecidableEq

/-- The slot of one auction id: the struct plus this id's slice of the
`pendingReturns` mapping. -/
structure AuctionState where
  a : Auction
  pendingReturns : Addr → Nat

/-- The zero value a fresh mapping slot holds. -/
def auction0 : Auction :=
  { token := 0, startTime := 0, endTime := 0, extensionWindow := 0,
    extensionSeconds := 0, reservePrice := 0, minBidIncrement := 0,
    highestBidder := 0, highestBid := 0, active := false, canceled := false,
    closed := false, proceedsClaimed := false, winner := 0, winningBid := 0 }

def AInit : AuctionState := ⟨auction0, fun _ => 0⟩

/-- `AuctionModule.createAuction` (registry-only entry point; the caller
check is outside this per-auction model). -/
def createAuction (s : AuctionState) (token : Addr)
    (startTime endTime reservePrice minBidIncrement extensionWindow extensionSeconds : Nat) :
    Except AErr AuctionState :=
  if s.a.active = true ∨ s.a.closed = true ∨ s.a.canceled = true ∨
      s.a.highestBid ≠ 0 ∨ s.a.highestBidder ≠ 0 then
    .error .AuctionAlreadyExists
  else if endTime ≤ startTime then
    .error .InvalidTimes
  else
    .ok ⟨{ s.a with
            token := token, startTime := startTime, endTime := endTime,
            reservePrice := reservePrice, minBidIncrement := minBidIncrement,
            extensionWindow := extensionWindow, extensionSeconds := extensionSeconds,
            active := true }, s.pendingReturns⟩

/-- `AuctionModule.placeBid`.  `msgValue` is the carried native value,
`now` the (64-bit-truncated) block timestamp.  Returns the new state and
the returned `newEndTime`. -/
def placeBid (s : AuctionState) (bidder : Addr) (amount msgValue now : Nat) :
    Except AErr (AuctionState × Nat) :=
  if s.a.active = false ∨ s.a.closed = true then
    if s.a.highestBid = 0 ∧ s.a.highestBidder = 0 ∧ s.a.canceled = false then
      .error .AuctionNotActive
    else
      .error .AuctionAlreadyClosed
  else if s.a.canceled = true then
    .error .AuctionIsCanceled
  else if now < s.a.startTime ∨ s.a.endTime ≤ now then
    .error .AuctionNotActive
  else if s.a.highestBid ≠ 0 ∧ U256MAX < s.a.highestBid + s.a.minBidIncrement then
    .error .Overflow
  else if amount < (if s.a.highestBid = 0 then s.a.reservePrice
      else s.a.highestBid + s.a.minBidIncrement) then
    .error .LowBid
  else if (if s.a.token = 0 then msgValue ≠ amount else msgValue ≠ 0) then
    .error .InvalidValue
  else if 0 < s.a.highestBid ∧
      U256MAX < s.pendingReturns s.a.highestBidder + s.a.highestBid then
    .error .Overflow
  else if (0 < s.a.extensionSeconds ∧ 0 < s.a.extensionWindow ∧
      s.a.endTime - now ≤ s.a.extensionWindow) ∧
      U64MAX < s.a.endTime + s.a.extensionSeconds then
    .error .Overflow
  else
    .ok (⟨{ s.a with
            highestBidder := bidder, highestBid := amount,
            endTime := if 0 < s.a.extensionSeconds ∧ 0 < s.a.extensionWindow ∧
                s.a.endTime - now ≤ s.a.extensionWindow
              then s.a.endTime + s.a.extensionSeconds else s.a.endTime },
          if 0 < s.a.highestBid then
            upd s.pendingReturns s.a.highestBidder
              (s.pendingReturns s.a.highestBidder + s.a.highestBid)
          else s.pendingReturns⟩,
         if 0 < s.a.extensionSeconds ∧ 0 < s.a.extensionWindow ∧
             s.a.endTime - now ≤ s.a.extensionWindow
           then s.a.endTime + s.a.extensionSeconds else s.a.endTime)

/-- `AuctionModule.closeAuction`. -/
def closeAuctionM (s : AuctionState) (now : Nat) : Except AErr AuctionState :=
  if s.a.highestBid = 0 ∧ s.a.highestBidder = 0 ∧ s.a.active = false ∧
      s.a.closed = false ∧ s.a.canceled = false then
    .error .AuctionNotFound
  else if s.a.active = false ∨ s.a.closed = true then
    .error .AuctionAlreadyClosed
  else if s.a.canceled = true then
    .error .AuctionIsCanceled
  else if now < s.a.endTime then
    .error .AuctionNotEnded
  else if s.a.highestBidder ≠ 0 ∧ s.a.reservePrice ≤ s.a.highestBid then
    .ok ⟨{ s.a with
            active := false, closed := true,
            winner := s.a.highestBidder, winningBid := s.a.highestBid }, s.pendingReturns⟩
  else if 0 < s.a.highestBid then
    if U256MAX < s.pendingReturns s.a.highestBidder + s.a.highestBid then
      .error .Overflow
    else
      .ok ⟨{ s.a with active := false, closed := true, highestBidder := 0, highestBid := 0 },
           upd s.pendingReturns s.a.highestBidder
             (s.pendingReturns s.a.highestBidder + s.a.highestBid)⟩
  else
    .ok ⟨{ s.a with active := false, closed := true, highestBidder := 0, highestBid := 0 },
         s.pendingReturns⟩

/-- `AuctionModule.cancelAuction`. -/
def cancelAuction (s : AuctionState) : Except AErr AuctionState :=
  if s.a.highestBid = 0 ∧ s.a.highestBidder = 0 ∧ s.a.active = false ∧
      s.a.closed = false ∧ s.a.canceled = false then
    .error .AuctionNotFound
  else if s.a.closed = true then
    .error .AuctionAlreadyClosed
  else if s.a.canceled = true then
    .error .AuctionIsCanceled
  else if 0 < s.a.highestBid ∧ s.a.highestBidder ≠ 0 then
    if U256MAX < s.pendingReturns s.a.highestBidder + s.a.highestBid then
      .error .Overflow
    else
      .ok ⟨{ s.a with active := false, canceled := true, highestBidder := 0, highestBid := 0 },
           upd s.pendingReturns s.a.highestBidder
             (s.pendingReturns s.a.highestBidder + s.a.highestBid)⟩
  else
    .ok ⟨{ s.a with active := false, canceled := true }, s.pendingReturns⟩

/-- `AuctionModule.withdrawRefund`.  Returns the withdrawn amount. -/
def auWithdrawRefund (s : AuctionState) (bidder : Addr) :
    Except AErr (AuctionState × Nat) :=
  if s.pendingReturns bidder = 0 then
    .error .NothingToWithdraw
  else
    .ok (⟨s.a, upd s.pendingReturns bidder 0⟩, s.pendingReturns bidder)

/-- `AuctionModule.sweepWinningBid`.  Returns `(state, amount, token)`. -/
def sweepWinningBid (s : AuctionState) (_to : Addr) :
    Except AErr (AuctionState × Nat × Addr) :=
  if s.a.closed = false then
    .error .AuctionNotActive
  else if s.a.canceled = true then
    .error .AuctionIsCanceled
  else if s.a.proceedsClaimed = true then
    .error .ProceedsAlreadyClaimed
  else if s.a.winner = 0 ∨ s.a.winningBid = 0 then
    .ok (⟨{ s.a with proceedsClaimed := true }, s.pendingReturns⟩, 0, s.a.token)
  else
    .ok (⟨{ s.a with proceedsClaimed := true }, s.pendingReturns⟩, s.a.winningBid, s.a.token)

/-- `AuctionModule.getOutcome` projection: `(winner, winningBid, token)`. -/
def getOutcome (s : AuctionState) : Addr × Nat × Addr :=
  (s.a.winner, s.a.winningBid, s.a.token)

/-- One registry-driven call into the auction module (any arguments). -/
inductive AStep : AuctionState → AuctionState → Prop where
  | create {s s' : AuctionState} {t st en rp inc ew es : Nat}
      (h : createAuction s t st en rp inc ew es = .ok s') : AStep s s'
  | bid {s s' : AuctionState} {b amt v now ne : Nat}
      (h : placeBid s b amt v now = .ok (s', ne)) : AStep s s'
  | close {s s' : AuctionState} {now : Nat}
      (h : closeAuctionM s now = .ok s') : AStep s s'
  | cancel {s s' : AuctionState}
      (h : cancelAuction s = .ok s') : AStep s s'
  | withdraw {s s' : AuctionState} {b amt : Nat}
      (h : auWithdrawRefund s b = .ok (s', amt)) : AStep s s'
  | sweep {s s' : AuctionState} {dst amt tk : Nat}
      (h : sweepWinningBid s dst = .ok (s', amt, tk)) : AStep s s'

/-- Auction slots reachable from a fresh mapping slot by registry calls. -/
def AReach (s : AuctionState) : Prop :=
  Relation.ReflTransGen AStep AInit s

/-- Reachability invariant of an auction slot: a nonzero standing bid
already met the reserve, and winner data only appears once closed. -/
def AInv (s : AuctionState) : Prop :=
  (s.a.highestBid = 0 ∨ s.a.reservePrice ≤ s.a.highestBid) ∧
  (s.a.closed = false → s.a.winner = 0 ∧ s.a.winningBid = 0)

/-! ## RaffleModule (from `contracts/RaffleModule.sol`) -/

/-- Errors declared by `RaffleModule.sol`; `Overflow` stands for the
checked-arithmetic panic of Solidity 0.8. -/
inductive RErr where
  | RaffleAlreadyExists
  | RaffleNotFound
  | RaffleAlreadyClosed
  | InvalidTarget
  | ZeroPurchase
  | ZeroAddress
  | InvalidTimes
  | RaffleNotActive
  | RaffleNotEnded
  | NothingToWithdraw
  | ProceedsAlreadyClaimed
  | RaffleIsCanceled
  | InvalidTicketPrice
  | InvalidValue
  | InvalidMinParticipants
  | Overflow
deriving Repr, DecidableEq

/-- The `Raffle` struct of `RaffleModule.sol` (field order preserved). -/
structure Raffle where
  token : Addr
  startTime : Nat
  endTime : Nat
  ticketPrice : Nat
  targetAmount : Nat
  minParticipants : Nat
  participantCount : Nat
  totalTickets : Nat
  raised : Nat
  closed : Bool
  canceled : Bool
  successful : Bool
  winner : Addr
  proceedsClaimed : Bool
deriving Repr, DecidableEq

/-- The slot of one raffle id: the struct plus this id's slices of the
`participants`, `tickets`, `contributed` and `isParticipant` mappings. -/
structure RaffleState where
  r : Raffle
  participants : List Addr
  tickets : Addr → Nat
  contributed : Addr → Nat
  isParticipant : Addr → Bool

def raffle0 : Raffle :=
  { token := 0, startTime := 0, endTime := 0, ticketPrice := 0, targetAmount := 0,
    minParticipants := 0, participantCount := 0, totalTickets := 0, raised := 0,
    closed := false, canceled := false, successful := false, winner := 0,
    proceedsClaimed := false }

def RInit : RaffleState :=
  ⟨raffle0, [], fun _ => 0, fun _ => 0, fun _ => false⟩

/-- `RaffleModule.createRaffle`. -/
def createRaffle (s : RaffleState) (token : Addr)
    (startTime endTime ticketPrice targetAmount minParticipants : Nat) :
    Except RErr RaffleState :=
  if s.r.startTime ≠ 0 ∨ s.r.raised ≠ 0 ∨ s.r.closed = true ∨ s.r.canceled = true then
    .error .RaffleAlreadyExists
  else if endTime ≤ startTime then
    .error .InvalidTimes
  else if ticketPrice = 0 then
    .error .InvalidTicketPrice
  else if targetAmount = 0 then
    .error .InvalidTarget
  else if minParticipants = 0 then
    .error .InvalidMinParticipants
  else
    .ok ⟨{ s.r with
            token := token, startTime := startTime, endTime := endTime,
            ticketPrice := ticketPrice, targetAmount := targetAmount,
            minParticipants := minParticipants },
         s.participants, s.tickets, s.contributed, s.isParticipant⟩

/-- `RaffleModule.enterRaffle`.  The single `Overflow` guard collects
every checked addition/multiplication of the body (each would revert
individually in Solidity 0.8; the observable all-or-nothing effect is
the same). -/
def enterRaffle (s : RaffleState) (buyer : Addr) (ticketCount msgValue now : Nat) :
    Except RErr RaffleState :=
  if s.r.startTime = 0 then
    .error .RaffleNotFound
  else if s.r.closed = true then
    .error .RaffleAlreadyClosed
  else if s.r.canceled = true then
    .error .RaffleIsCanceled
  else if now < s.r.startTime ∨ s.r.endTime ≤ now then
    .error .RaffleNotActive
  else if ticketCount = 0 then
    .error .ZeroPurchase
  else if (if s.r.token = 0 then msgValue ≠ s.r.ticketPrice * ticketCount
      else msgValue ≠ 0) then
    .error .InvalidValue
  else if U256MAX < s.r.ticketPrice * ticketCount ∨
      U32MAX < s.r.participantCount + 1 ∨
      U256MAX < s.tickets buyer + ticketCount ∨
      U256MAX < s.contributed buyer + s.r.ticketPrice * ticketCount ∨
      U256MAX < s.r.totalTickets + ticketCount ∨
      U256MAX < s.r.raised + s.r.ticketPrice * ticketCount then
    .error .Overflow
  else if s.isParticipant buyer = false then
    .ok ⟨{ s.r with
            participantCount := s.r.participantCount + 1,
            totalTickets := s.r.totalTickets + ticketCount,
            raised := s.r.raised + s.r.ticketPrice * ticketCount },
         s.participants ++ [buyer],
         upd s.tickets buyer (s.tickets buyer + ticketCount),
         upd s.contributed buyer (s.contributed buyer + s.r.ticketPrice * ticketCount),
         upd s.isParticipant buyer true⟩
  else
    .ok ⟨{ s.r with
            totalTickets := s.r.totalTickets + ticketCount,
            raised := s.r.raised + s.r.ticketPrice * ticketCount },
         s.participants,
         upd s.tickets buyer (s.tickets buyer + ticketCount),
         upd s.contributed buyer (s.contributed buyer + s.r.ticketPrice * ticketCount),
         s.isParticipant⟩

/-- The winner-selection loop of `RaffleModule.closeRaffle`: walk the
participant list accumulating ticket counts, returning the first
participant whose accumulated count exceeds `pick`; the Solidity
named-return default `address(0)` results if the loop falls through. -/
def selectFrom (tk : Addr → Nat) : List Addr → Nat → Nat → Addr
  | [], _, _ => 0
  | p :: rest, acc, pick =>
    if pick < acc + tk p then p else selectFrom tk rest (acc + tk p) pick

/-- `RaffleModule.closeRaffle`.  Returns the new state and the tuple
`(successful, winner, raised, token)`. -/
def closeRaffleM (s : RaffleState) (now randomSeed : Nat) :
    Except RErr (RaffleState × Bool × Addr × Nat × Addr) :=
  if s.r.startTime = 0 then
    .error .RaffleNotFound
  else if s.r.closed = true then
    .error .RaffleAlreadyClosed
  else if s.r.canceled = true then
    .error .RaffleIsCanceled
  else if ¬ (s.r.endTime ≤ now ∨ s.r.targetAmount ≤ s.r.raised) then
    .error .RaffleNotEnded
  else if ¬ (s.r.minParticipants ≤ s.r.participantCount ∧
      s.r.targetAmount ≤ s.r.raised ∧ 0 < s.r.totalTickets) then
    .ok (⟨{ s.r with closed := true, successful := false },
          s.participants, s.tickets, s.contributed, s.isParticipant⟩,
         false, 0, s.r.raised, s.r.token)
  else
    .ok (⟨{ s.r with
            closed := true, successful := true,
            winner := selectFrom s.tickets s.participants 0 (randomSeed % s.r.totalTickets) },
          s.participants, s.tickets, s.contributed, s.isParticipant⟩,
         true, selectFrom s.tickets s.participants 0 (randomSeed % s.r.totalTickets),
         s.r.raised, s.r.token)

/-- `RaffleModule.cancelRaffle`. -/
def cancelRaffle (s : RaffleState) : Except RErr RaffleState :=
  if s.r.startTime = 0 then
    .error .RaffleNotFound
  else if s.r.closed = true then
    .error .RaffleAlreadyClosed
  else
    .ok ⟨{ s.r with canceled := true, closed := true, successful := false },
         s.participants, s.tickets, s.contributed, s.isParticipant⟩

/-- `RaffleModule.withdrawRefund`.  Returns the refunded amount. -/
def raWithdrawRefund (s : RaffleState) (buyer : Addr) :
    Except RErr (RaffleState × Nat) :=
  if s.r.startTime = 0 then
    .error .RaffleNotFound
  else if s.r.closed = false ∨ s.r.successful = true then
    .error .NothingToWithdraw
  else if s.contributed buyer = 0 then
    .error .NothingToWithdraw
  else
    .ok (⟨s.r, s.participants, s.tickets, upd s.contributed buyer 0, s.isParticipant⟩,
         s.contributed buyer)

/-- `RaffleModule.sweepProceeds`.  Returns `(state, amount, token)`. -/
def sweepProceeds (s : RaffleState) (_to : Addr) :
    Except RErr (RaffleState × Nat × Addr) :=
  if s.r.closed = false then
    .error .RaffleNotActive
  else if s.r.canceled = true then
    .error .RaffleIsCanceled
  else if s.r.successful = false then
    .error .NothingToWithdraw
  else if s.r.proceedsClaimed = true then
    .error .ProceedsAlreadyClaimed
  else
    .ok (⟨{ s.r with proceedsClaimed := true },
          s.participants, s.tickets, s.contributed, s.isParticipant⟩,
         s.r.raised, s.r.token)

/-- `RaffleModule.quoteEntry`. -/
def quoteEntry (s : RaffleState) (ticketCount : Nat) : Except RErr Nat :=
  if s.r.startTime = 0 then .error .RaffleNotFound
  else .ok (s.r.ticketPrice * ticketCount)

/-- One registry-driven call into the raffle module (any arguments). -/
inductive RStep : RaffleState → RaffleState → Prop where
  | create {s s' : RaffleState} {t st en tp ta mp : Nat}
      (h : createRaffle s t st en tp ta mp = .ok s') : RStep s s'
  | enter {s s' : RaffleState} {b c v now : Nat}
      (h : enterRaffle s b c v now = .ok s') : RStep s s'
  | close {s s' : RaffleState} {now seed : Nat} {res : Bool × Addr × Nat × Addr}
      (h : closeRaffleM s now seed = .ok (s', res)) : RStep s s'
  | cancel {s s' : RaffleState}
      (h : cancelRaffle s = .ok s') : RStep s s'
  | withdraw {s s' : RaffleState} {b amt : Nat}
      (h : raWithdrawRefund s b = .ok (s', amt)) : RStep s s'
  | sweep {s s' : RaffleState} {dst amt tk : Nat}
      (h : sweepProceeds s dst = .ok (s', amt, tk)) : RStep s s'

/-- Like `RStep` but excluding `withdrawRefund` calls. -/
inductive RStepNR : RaffleState → RaffleState → Prop where
  | create {s s' : RaffleState} {t st en tp ta mp : Nat}
      (h : createRaffle s t st en tp ta mp = .ok s') : RStepNR s s'
  | enter {s s' : RaffleState} {b c v now : Nat}
      (h : enterRaffle s b c v now = .ok s') : RStepNR s s'
  | close {s s' : RaffleState} {now seed : Nat} {res : Bool × Addr × Nat × Addr}
      (h : closeRaffleM s now seed = .ok (s', res)) : RStepNR s s'
  | cancel {s s' : RaffleState}
      (h : cancelRaffle s = .ok s') : RStepNR s s'
  | sweep {s s' : RaffleState} {dst amt tk : Nat}
      (h : sweepProceeds s dst = .ok (s', amt, tk)) : RStepNR s s'

/-- Raffle slots reachable from a fresh mapping slot by registry calls. -/
def RReach (s : RaffleState) : Prop :=
  Relation.ReflTransGen RStep RInit s

/-- Raffle slots reachable without any `withdrawRefund` call. -/
def RReachNR (s : RaffleState) : Prop :=
  Relation.ReflTransGen RStepNR RInit s

/-- Reachability invariant of a raffle slot: the participant book-keeping
is consistent, `totalTickets` is the sum of the per-participant ticket
counts and `raised` is `totalTickets × ticketPrice`. -/
def RInv (s : RaffleState) : Prop :=
  (∀ p, p ∈ s.participants ↔ s.isParticipant p = true) ∧
  (∀ p, s.isParticipant p = false → s.tickets p = 0) ∧
  s.participants.Nodup ∧
  s.r.totalTickets = (s.participants.map s.tickets).sum ∧
  s.r.raised = s.r.totalTickets * s.r.ticketPrice ∧
  (s.r.startTime = 0 → s.r.totalTickets = 0 ∧ s.participants = [])

/-- The part of the raffle invariant that `withdrawRefund` breaks:
`raised` is the sum of the per-participant contributed amounts. -/
def RInvC (s : RaffleState) : Prop :=
  (∀ p, s.isParticipant p = false → s.contributed p = 0) ∧
  s.r.raised = (s.participants.map s.contributed).sum

/-- Cumulative ticket count of the first `n` participants. -/
def cum (tk : Addr → Nat) (l : List Addr) (n : Nat) : Nat :=
  ((l.take n).map tk).sum

/-! ## EscrowVault

The `EscrowVault` variant that `MarketplaceRegistry.sol` is compiled
against (six-argument `createEscrow`, `release(id, feeRecipient,
feeBps)` with a fee split, and a pull-payment credit ledger) is not
among the source files; only its callers in the Registry and the spec
describe it.  The definitions below are therefore modelled from the
spec (§4.2) and from the Registry's call sites. -/

inductive EscrowStatus where
  | None
  | Funded
  | Released
  | Refunded
deriving Repr, DecidableEq

structure EscrowRec where
  buyer : Addr
  seller : Addr
  token : Addr
  amount : Nat
  status : EscrowStatus
deriving Repr, DecidableEq

def escrow0 : EscrowRec :=
  { buyer := 0, seller := 0, token := 0, amount := 0, status := .None }

/-- Vault state: escrow records by id, and the credit ledger
`credits recipient currency`. -/
structure VaultState where
  escrows : Nat → EscrowRec
  credits : Addr → Addr → Nat

def VInit : VaultState := ⟨fun _ => escrow0, fun _ _ => 0⟩

inductive VErr where
  | EscrowExists
  | InvalidAmount
  | ZeroAddress
  | InvalidState
  | InvalidEscrowId
  | NothingToWithdraw
  | Overflow
deriving Repr, DecidableEq

/-- Modelled from the spec: `createEscrow(id, payer, buyer, seller,
currency, amount)` "requires id unused, amount > 0, buyer/seller
non-null; pulls or accepts exact value; sets status Funded".  The
payer argument only designates where the value is pulled from and has
no observable effect in this model. -/
def vCreateEscrow (v : VaultState) (id : Nat) (buyer seller token : Addr)
    (amount : Nat) : Except VErr VaultState :=
  if (v.escrows id).status ≠ .None then
    .error .EscrowExists
  else if amount = 0 then
    .error .InvalidAmount
  else if buyer = 0 ∨ seller = 0 then
    .error .ZeroAddress
  else
    .ok ⟨upd v.escrows id
          { buyer := buyer, seller := seller, token := token,
            amount := amount, status := .Funded },
         v.credits⟩

/-- Modelled from the spec: `release(id, feeRecipient, feeBps)`
"requires status Funded; computes fee split, credits seller and fee
recipient, sets status Released", with the fee formula of §4.1 (also
in `MarketplaceRegistry._quoteFee`): `fee = amount × feeBps / 10000`,
seller receives `amount − fee`. -/
def vRelease (v : VaultState) (id : Nat) (feeRecipient : Addr) (feeBps : Nat) :
    Except VErr VaultState :=
  if (v.escrows id).status = .None then
    .error .InvalidEscrowId
  else if (v.escrows id).status ≠ .Funded then
    .error .InvalidState
  else
    let e := v.escrows id
    let fee := e.amount * feeBps / 10000
    let c1 := upd v.credits e.seller
        (upd (v.credits e.seller) e.token (v.credits e.seller e.token + (e.amount - fee)))
    let c2 := upd c1 feeRecipient
        (upd (c1 feeRecipient) e.token (c1 feeRecipient e.token + fee))
    .ok ⟨upd v.escrows id { e with status := .Released }, c2⟩

/-- Modelled from the spec: `refund(id)` "requires status Funded;
credits buyer full amount, sets status Refunded". -/
def vRefund (v : VaultState) (id : Nat) : Except VErr VaultState :=
  if (v.escrows id).status = .None then
    .error .InvalidEscrowId
  else if (v.escrows id).status ≠ .Funded then
    .error .InvalidState
  else
    .ok ⟨upd v.escrows id { v.escrows id with status := .Refunded },
         upd v.credits (v.escrows id).buyer
           (upd (v.credits (v.escrows id).buyer) (v.escrows id).token
             (v.credits (v.escrows id).buyer (v.escrows id).token + (v.escrows id).amount))⟩

/-- Modelled from the spec: `withdraw(currency, recipient)` "zeroes the
recipient's credit for that currency and transfers it out; fails if
credit is zero". -/
def vWithdraw (v : VaultState) (token recipient : Addr) :
    Except VErr (VaultState × Nat) :=
  if v.credits recipient token = 0 then
    .error .NothingToWithdraw
  else
    .ok (⟨v.escrows, upd v.credits recipient (upd (v.credits recipient) token 0)⟩,
         v.credits recipient token)

/-- Modelled from the spec: `getEscrow` "fails if the id was never
created". -/
def vGetEscrow (v : VaultState) (id : Nat) : Except VErr EscrowRec :=
  if (v.escrows id).status = .None then .error .InvalidEscrowId
  else .ok (v.escrows id)

/-! ## MarketplaceRegistry (from `contracts/MarketplaceRegistry.sol`) -/

inductive SaleType where
  | FixedPrice
  | Auction
  | Raffle
deriving Repr, DecidableEq

inductive ListingStatus where
  | None
  | Active
  | Cancelled
  | Expired
  | PendingDelivery
  | Completed
  | Refunded
deriving Repr, DecidableEq

/-- The `Listing` struct of `MarketplaceRegistry.sol`.  `metadataLen`
models `bytes(metadataURI).length`, the only use the contract makes of
the URI string. -/
structure Listing where
  seller : Addr
  buyer : Addr
  saleType : SaleType
  status : ListingStatus
  metadataLen : Nat
  price : Nat
  token : Addr
  moduleId : Nat
  escrowId : Nat
  startTime : Nat
  endTime : Nat
  raffleCommit : Nat
deriving Repr, DecidableEq

def listing0 : Listing :=
  { seller := 0, buyer := 0, saleType := .FixedPrice, status := .None,
    metadataLen := 0, price := 0, token := 0, moduleId := 0, escrowId := 0,
    startTime := 0, endTime := 0, raffleCommit := 0 }

inductive RegErr where
  | ListingAlreadyExists
  | ListingNotFound
  | InvalidListingId
  | NotSeller
  | ZeroAddress
  | NotBuyer
  | InvalidSaleType
  | InvalidStatus
  | InvalidTimes
  | InvalidAmount
  | NotArbiter
  | ModuleNotOpened
  | ListingNotActive
  | ListingNotSellable
  | CommitmentMismatch
  | EnforcedPause
  | ExpectedPause
  | NotOwner
  | SubcallFailed
deriving Repr, DecidableEq

/-- Registry state restricted to one listing and the module/vault slots
it refers to.  (Listings, auctions, raffles and escrows at distinct ids
occupy disjoint storage, so one listing's lifecycle is fully described
by this slice.) -/
structure World where
  listing : Listing
  auction : AuctionState
  raffle : RaffleState
  vault : VaultState
  protocolFeeBps : Nat
  feeRecipient : Addr
  arbiter : Addr
  owner : Addr
  paused : Bool
  listingNonce : Nat

/-- `MarketplaceRegistry.createListing` (for the listing slot under
consideration; the keccak-derived fresh id is the slot itself). -/
def regCreateListing (w : World) (sender : Addr) (metadataLen price : Nat)
    (token : Addr) (saleType : SaleType) (now : Nat) : Except RegErr World :=
  if w.paused = true then
    .error .EnforcedPause
  else if metadataLen = 0 then
    .error .InvalidListingId
  else if saleType = .FixedPrice ∧ price = 0 then
    .error .InvalidAmount
  else if w.listing.seller ≠ 0 then
    .error .ListingAlreadyExists
  else
    .ok { w with
          listingNonce := w.listingNonce + 1,
          listing := { seller := sender, buyer := 0, saleType := saleType,
                       status := .Active, metadataLen := metadataLen, price := price,
                       token := token, moduleId := 0, escrowId := 0,
                       startTime := now, endTime := 0, raffleCommit := 0 } }

/-- `MarketplaceRegistry.cancelListing`. -/
def regCancelListing (w : World) (sender : Addr) : Except RegErr World :=
  if w.paused = true then
    .error .EnforcedPause
  else if w.listing.seller = 0 then
    .error .ListingNotFound
  else if sender ≠ w.listing.seller then
    .error .NotSeller
  else if w.listing.status ≠ .Active then
    .error .InvalidStatus
  else if w.listing.saleType = .Auction ∧ w.listing.moduleId ≠ 0 then
    match cancelAuction w.auction with
    | .error _ => .error .SubcallFailed
    | .ok a' => .ok { w with
        auction := a', listing := { w.listing with status := .Cancelled } }
  else if w.listing.saleType = .Raffle ∧ w.listing.moduleId ≠ 0 then
    match cancelRaffle w.raffle with
    | .error _ => .error .SubcallFailed
    | .ok r' => .ok { w with
        raffle := r', listing := { w.listing with status := .Cancelled } }
  else
    .ok { w with listing := { w.listing with status := .Cancelled } }

/-- `MarketplaceRegistry.openAuction`.  `aid` is the keccak-derived
auction id `hash("AUCTION", listingId)`. -/
def regOpenAuction (w : World) (sender : Addr)
    (startTime endTime reservePrice minBidIncrement extensionWindow extensionSeconds aid : Nat) :
    Except RegErr World :=
  if w.paused = true then
    .error .EnforcedPause
  else if w.listing.seller = 0 then
    .error .ListingNotFound
  else if sender ≠ w.listing.seller then
    .error .NotSeller
  else if w.listing.status ≠ .Active then
    .error .InvalidStatus
  else if w.listing.saleType ≠ .Auction then
    .error .InvalidSaleType
  else if w.listing.moduleId ≠ 0 then
    .error .ListingAlreadyExists
  else if endTime ≤ startTime then
    .error .InvalidTimes
  else
    match createAuction w.auction w.listing.token startTime endTime reservePrice
        minBidIncrement extensionWindow extensionSeconds with
    | .error _ => .error .SubcallFailed
    | .ok a' =>
      .ok { w with
            auction := a',
            listing := { w.listing with
                          moduleId := aid, startTime := startTime, endTime := endTime } }

/-- `MarketplaceRegistry.bid`. -/
def regBid (w : World) (sender : Addr) (amount msgValue now : Nat) :
    Except RegErr World :=
  if w.paused = true then
    .error .EnforcedPause
  else if w.listing.seller = 0 then
    .error .ListingNotFound
  else if w.listing.status ≠ .Active then
    .error .ListingNotActive
  else if w.listing.saleType ≠ .Auction then
    .error .InvalidSaleType
  else if w.listing.moduleId = 0 then
    .error .ModuleNotOpened
  else if (if w.listing.token = 0 then msgValue ≠ amount else msgValue ≠ 0) then
    .error .InvalidAmount
  else
    match placeBid w.auction sender amount (if w.listing.token = 0 then amount else 0) now with
    | .error _ => .error .SubcallFailed
    | .ok (a', _) => .ok { w with auction := a' }

/-- `MarketplaceRegistry.closeAuction`.  `eid` is the keccak-derived
escrow id `hash("ESCROW", listingId, moduleId, blockNumber)`;
`registryAddr` (= the registry itself) receives the swept proceeds and
funds the escrow. -/
def regCloseAuction (w : World) (now eid : Nat) : Except RegErr World :=
  if w.paused = true then
    .error .EnforcedPause
  else if w.listing.seller = 0 then
    .error .ListingNotFound
  else if w.listing.status ≠ .Active then
    .error .InvalidStatus
  else if w.listing.saleType ≠ .Auction then
    .error .InvalidSaleType
  else if w.listing.moduleId = 0 then
    .error .ModuleNotOpened
  else
    match closeAuctionM w.auction now with
    | .error _ => .error .SubcallFailed
    | .ok a1 =>
      match getOutcome a1 with
      | (winner, winningBid, token) =>
        match sweepWinningBid a1 0 with
        | .error _ => .error .SubcallFailed
        | .ok (a2, proceeds, _) =>
          if proceeds = 0 ∨ winner = 0 ∨ winningBid = 0 then
            .ok { w with
                  auction := a2, listing := { w.listing with status := .Expired } }
          else
            match vCreateEscrow w.vault eid winner w.listing.seller token proceeds with
            | .error _ => .error .SubcallFailed
            | .ok v' =>
              .ok { w with
                    auction := a2, vault := v',
                    listing := { w.listing with
                                  escrowId := eid, price := proceeds,
                                  status := .PendingDelivery, buyer := winner } }

/-- `MarketplaceRegistry.openRaffle`.  `rid` is the keccak-derived
raffle id `hash("RAFFLE", listingId)`. -/
def regOpenRaffle (w : World) (sender : Addr)
    (startTime endTime ticketPrice targetAmount minParticipants commit rid : Nat) :
    Except RegErr World :=
  if w.paused = true then
    .error .EnforcedPause
  else if w.listing.seller = 0 then
    .error .ListingNotFound
  else if sender ≠ w.listing.seller then
    .error .NotSeller
  else if w.listing.status ≠ .Active then
    .error .InvalidStatus
  else if w.listing.saleType ≠ .Raffle then
    .error .InvalidSaleType
  else if w.listing.moduleId ≠ 0 then
    .error .ListingAlreadyExists
  else if endTime ≤ startTime then
    .error .InvalidTimes
  else if commit = 0 then
    .error .InvalidListingId
  else
    match createRaffle w.raffle w.listing.token startTime endTime ticketPrice
        targetAmount minParticipants with
    | .error _ => .error .SubcallFailed
    | .ok r' =>
      .ok { w with
            raffle := r',
            listing := { w.listing with
                          moduleId := rid, startTime := startTime,
                          endTime := endTime, raffleCommit := commit } }

/-- `MarketplaceRegistry.enterRaffle`. -/
def regEnterRaffle (w : World) (sender : Addr) (ticketCount msgValue now : Nat) :
    Except RegErr World :=
  if w.paused = true then
    .error .EnforcedPause
  else if w.listing.seller = 0 then
    .error .ListingNotFound
  else if w.listing.status ≠ .Active then
    .error .ListingNotActive
  else if w.listing.saleType ≠ .Raffle then
    .error .InvalidSaleType
  else if w.listing.moduleId = 0 then
    .error .ModuleNotOpened
  else if w.listing.token = 0 then
    match enterRaffle w.raffle sender ticketCount msgValue now with
    | .error _ => .error .SubcallFailed
    | .ok r' => .ok { w with raffle := r' }
  else if msgValue ≠ 0 then
    .error .InvalidAmount
  else
    match quoteEntry w.raffle ticketCount with
    | .error _ => .error .SubcallFailed
    | .ok _ =>
      match enterRaffle w.raffle sender ticketCount 0 now with
      | .error _ => .error .SubcallFailed
      | .ok r' => .ok { w with raffle := r' }

/-- `MarketplaceRegistry.closeRaffle`.  `revealHash` stands for
`keccak(abi.encodePacked(reveal))` and `seed` for the derived selection
seed (both environment-supplied hash values); `eid` is the derived
escrow id. -/
def regCloseRaffle (w : World) (revealHash seed now eid : Nat) : Except RegErr World :=
  if w.paused = true then
    .error .EnforcedPause
  else if w.listing.seller = 0 then
    .error .ListingNotFound
  else if w.listing.status ≠ .Active then
    .error .InvalidStatus
  else if w.listing.saleType ≠ .Raffle then
    .error .InvalidSaleType
  else if w.listing.moduleId = 0 then
    .error .ModuleNotOpened
  else if w.listing.raffleCommit = 0 then
    .error .CommitmentMismatch
  else if revealHash ≠ w.listing.raffleCommit then
    .error .CommitmentMismatch
  else
    match closeRaffleM w.raffle now seed with
    | .error _ => .error .SubcallFailed
    | .ok (r1, successful, winner, raised, token) =>
      if successful = false then
        .ok { w with
              raffle := r1, listing := { w.listing with status := .Expired } }
      else
        match sweepProceeds r1 0 with
        | .error _ => .error .SubcallFailed
        | .ok (r2, proceeds, _) =>
          if proceeds ≠ raised then
            .ok { w with
                  raffle := r2, listing := { w.listing with status := .Expired } }
          else
            match vCreateEscrow w.vault eid winner w.listing.seller token raised with
            | .error _ => .error .SubcallFailed
            | .ok v' =>
              .ok { w with
                    raffle := r2, vault := v',
                    listing := { w.listing with
                                  escrowId := eid, buyer := winner,
                                  price := raised, status := .PendingDelivery } }

/-- `MarketplaceRegistry.buy`. -/
def regBuy (w : World) (sender : Addr) (msgValue eid : Nat) : Except RegErr World :=
  if w.paused = true then
    .error .EnforcedPause
  else if w.listing.seller = 0 then
    .error .ListingNotFound
  else if w.listing.status ≠ .Active then
    .error .ListingNotSellable
  else if w.listing.saleType ≠ .FixedPrice then
    .error .InvalidSaleType
  else if w.listing.price = 0 then
    .error .InvalidAmount
  else if (if w.listing.token = 0 then msgValue ≠ w.listing.price else msgValue ≠ 0) then
    .error .InvalidAmount
  else
    match vCreateEscrow w.vault eid sender w.listing.seller w.listing.token w.listing.price with
    | .error _ => .error .SubcallFailed
    | .ok v' =>
      .ok { w with
            vault := v',
            listing := { w.listing with
                          escrowId := eid, buyer := sender,
                          status := .PendingDelivery } }

/-- `MarketplaceRegistry.confirmDelivery`.  (`_quoteFee` reads the
escrow record before the release; its failure, like any sub-call
failure, aborts the whole operation.) -/
def regConfirmDelivery (w : World) (sender : Addr) : Except RegErr World :=
  if w.paused = true then
    .error .EnforcedPause
  else if w.listing.seller = 0 then
    .error .ListingNotFound
  else if sender ≠ w.listing.buyer then
    .error .NotBuyer
  else if w.listing.status ≠ .PendingDelivery then
    .error .InvalidStatus
  else
    match vGetEscrow w.vault w.listing.escrowId with
    | .error _ => .error .SubcallFailed
    | .ok _ =>
      match vRelease w.vault w.listing.escrowId w.feeRecipient w.protocolFeeBps with
      | .error _ => .error .SubcallFailed
      | .ok v' =>
        .ok { w with
              vault := v', listing := { w.listing with status := .Completed } }

/-- `MarketplaceRegistry.requestRefund`. -/
def regRequestRefund (w : World) (sender : Addr) : Except RegErr World :=
  if w.paused = true then
    .error .EnforcedPause
  else if w.listing.seller = 0 then
    .error .ListingNotFound
  else if sender ≠ w.listing.buyer then
    .error .NotBuyer
  else if w.listing.status ≠ .PendingDelivery then
    .error .InvalidStatus
  else
    match vRefund w.vault w.listing.escrowId with
    | .error _ => .error .SubcallFailed
    | .ok v' =>
      .ok { w with
            vault := v', listing := { w.listing with status := .Refunded } }

/-- `MarketplaceRegistry.arbiterRelease`. -/
def regArbiterRelease (w : World) (sender : Addr) : Except RegErr World :=
  if w.paused = true then
    .error .EnforcedPause
  else if sender ≠ w.arbiter then
    .error .NotArbiter
  else if w.listing.status ≠ .PendingDelivery then
    .error .InvalidStatus
  else
    match vGetEscrow w.vault w.listing.escrowId with
    | .error _ => .error .SubcallFailed
    | .ok _ =>
      match vRelease w.vault w.listing.escrowId w.feeRecipient w.protocolFeeBps with
      | .error _ => .error .SubcallFailed
      | .ok v' =>
        .ok { w with
              vault := v', listing := { w.listing with status := .Completed } }

/-- `MarketplaceRegistry.arbiterRefund`. -/
def regArbiterRefund (w : World) (sender : Addr) : Except RegErr World :=
  if w.paused = true then
    .error .EnforcedPause
  else if sender ≠ w.arbiter then
    .error .NotArbiter
  else if w.listing.status ≠ .PendingDelivery then
    .error .InvalidStatus
  else
    match vRefund w.vault w.listing.escrowId with
    | .error _ => .error .SubcallFailed
    | .ok v' =>
      .ok { w with
            vault := v', listing := { w.listing with status := .Refunded } }

/-- `MarketplaceRegistry.withdrawPayout`. -/
def regWithdrawPayout (w : World) (sender token : Addr) :
    Except RegErr (World × Nat) :=
  match vWithdraw w.vault token sender with
  | .error _ => .error .SubcallFailed
  | .ok (v', amt) => .ok ({ w with vault := v' }, amt)

/-- `MarketplaceRegistry.withdrawAuctionRefund`. -/
def regWithdrawAuctionRefund (w : World) (sender : Addr) :
    Except RegErr (World × Nat) :=
  if w.listing.seller = 0 then
    .error .ListingNotFound
  else if w.listing.saleType ≠ .Auction then
    .error .InvalidSaleType
  else if w.listing.moduleId = 0 then
    .error .ModuleNotOpened
  else
    match auWithdrawRefund w.auction sender with
    | .error _ => .error .SubcallFailed
    | .ok (a', amt) => .ok ({ w with auction := a' }, amt)

/-- `MarketplaceRegistry.withdrawRaffleRefund`. -/
def regWithdrawRaffleRefund (w : World) (sender : Addr) :
    Except RegErr (World × Nat) :=
  if w.listing.seller = 0 then
    .error .ListingNotFound
  else if w.listing.saleType ≠ .Raffle then
    .error .InvalidSaleType
  else if w.listing.moduleId = 0 then
    .error .ModuleNotOpened
  else
    match raWithdrawRefund w.raffle sender with
    | .error _ => .error .SubcallFailed
    | .ok (r', amt) => .ok ({ w with raffle := r' }, amt)

/-- `MarketplaceRegistry.withdrawFees`. -/
def regWithdrawFees (w : World) (sender token : Addr) :
    Except RegErr (World × Nat) :=
  if sender ≠ w.owner then
    .error .NotOwner
  else
    match vWithdraw w.vault token w.feeRecipient with
    | .error _ => .error .SubcallFailed
    | .ok (v', amt) => .ok ({ w with vault := v' }, amt)

/-- `MarketplaceRegistry.setProtocolFeeBps` (guardrail: max 10%). -/
def setProtocolFeeBps (w : World) (sender : Addr) (newFeeBps : Nat) :
    Except RegErr World :=
  if sender ≠ w.owner then
    .error .NotOwner
  else if 1000 < newFeeBps then
    .error .InvalidAmount
  else
    .ok { w with protocolFeeBps := newFeeBps }

/-- `MarketplaceRegistry.setFeeRecipient`. -/
def setFeeRecipient (w : World) (sender newRecipient : Addr) : Except RegErr World :=
  if sender ≠ w.owner then
    .error .NotOwner
  else if newRecipient = 0 then
    .error .ZeroAddress
  else
    .ok { w with feeRecipient := newRecipient }

/-- `MarketplaceRegistry.setArbiter`. -/
def setArbiter (w : World) (sender newArbiter : Addr) : Except RegErr World :=
  if sender ≠ w.owner then
    .error .NotOwner
  else
    .ok { w with arbiter := newArbiter }

/-- `MarketplaceRegistry.pause` (OpenZeppelin `_pause` requires
not-yet-paused). -/
def regPause (w : World) (sender : Addr) : Except RegErr World :=
  if sender ≠ w.owner then .error .NotOwner
  else if w.paused = true then .error .EnforcedPause
  else .ok { w with paused := true }

/-- `MarketplaceRegistry.unpause` (OpenZeppelin `_unpause` requires
paused). -/
def regUnpause (w : World) (sender : Addr) : Except RegErr World :=
  if sender ≠ w.owner then .error .NotOwner
  else if w.paused = false then .error .ExpectedPause
  else .ok { w with paused := false }

/-- `MarketplaceRegistry._quoteFee`'s fee formula. -/
def quoteFeeAmount (amount feeBps : Nat) : Nat :=
  amount * feeBps / 10000

/-- One public Registry call, with arbitrary caller and arguments.
Side conditions record facts of the execution substrate, not of the
code: a transaction sender is never the zero address, and the
keccak-derived module ids are nonzero. -/
inductive RegStep : World → World → Prop where
  | createListing {w w' : World} {sender metadataLen price token now : Nat} {st : SaleType}
      (hs : sender ≠ 0)
      (h : regCreateListing w sender metadataLen price token st now = .ok w') : RegStep w w'
  | cancelListing {w w' : World} {sender : Nat}
      (h : regCancelListing w sender = .ok w') : RegStep w w'
  | openAuction {w w' : World} {sender st en rp inc ew es aid : Nat}
      (ha : aid ≠ 0)
      (h : regOpenAuction w sender st en rp inc ew es aid = .ok w') : RegStep w w'
  | bid {w w' : World} {sender amount msgValue now : Nat}
      (h : regBid w sender amount msgValue now = .ok w') : RegStep w w'
  | closeAuction {w w' : World} {now eid : Nat}
      (h : regCloseAuction w now eid = .ok w') : RegStep w w'
  | openRaffle {w w' : World} {sender st en tp ta mp commit rid : Nat}
      (hrid : rid ≠ 0)
      (h : regOpenRaffle w sender st en tp ta mp commit rid = .ok w') : RegStep w w'
  | enterRaffle {w w' : World} {sender ticketCount msgValue now : Nat}
      (h : regEnterRaffle w sender ticketCount msgValue now = .ok w') : RegStep w w'
  | closeRaffle {w w' : World} {revealHash seed now eid : Nat}
      (h : regCloseRaffle w revealHash seed now eid = .ok w') : RegStep w w'
  | buy {w w' : World} {sender msgValue eid : Nat}
      (h : regBuy w sender msgValue eid = .ok w') : RegStep w w'
  | confirmDelivery {w w' : World} {sender : Nat}
      (h : regConfirmDelivery w sender = .ok w') : RegStep w w'
  | requestRefund {w w' : World} {sender : Nat}
      (h : regRequestRefund w sender = .ok w') : RegStep w w'
  | arbiterRelease {w w' : World} {sender : Nat}
      (h : regArbiterRelease w sender = .ok w') : RegStep w w'
  | arbiterRefund {w w' : World} {sender : Nat}
      (h : regArbiterRefund w sender = .ok w') : RegStep w w'
  | withdrawPayout {w w' : World} {sender token amt : Nat}
      (h : regWithdrawPayout w sender token = .ok (w', amt)) : RegStep w w'
  | withdrawAuctionRefund {w w' : World} {sender amt : Nat}
      (h : regWithdrawAuctionRefund w sender = .ok (w', amt)) : RegStep w w'
  | withdrawRaffleRefund {w w' : World} {sender amt : Nat}
      (h : regWithdrawRaffleRefund w sender = .ok (w', amt)) : RegStep w w'
  | withdrawFees {w w' : World} {sender token amt : Nat}
      (h : regWithdrawFees w sender token = .ok (w', amt)) : RegStep w w'
  | setFeeBps {w w' : World} {sender newFeeBps : Nat}
      (h : setProtocolFeeBps w sender newFeeBps = .ok w') : RegStep w w'
  | setFeeRecip {w w' : World} {sender newRecipient : Nat}
      (h : setFeeRecipient w sender newRecipient = .ok w') : RegStep w w'
  | setArb {w w' : World} {sender newArbiter : Nat}
      (h : setArbiter w sender newArbiter = .ok w') : RegStep w w'
  | pause {w w' : World} {sender : Nat}
      (h : regPause w sender = .ok w') : RegStep w w'
  | unpause {w w' : World} {sender : Nat}
      (h : regUnpause w sender = .ok w') : RegStep w w'

/-- The listing slot invariant the state machine needs: a slot whose
seller is unset was never written, so its status is `None`. -/
def WInv (w : World) : Prop :=
  w.listing.seller = 0 → w.listing.status = .None

/-- The edges of the spec's per-listing state machine
`None → Active → {Cancelled, Expired, PendingDelivery} → {Completed, Refunded}`. -/
def Edge (s t : ListingStatus) : Prop :=
  (s = .None ∧ t = .Active) ∨
  (s = .Active ∧ (t = .Cancelled ∨ t = .Expired ∨ t = .PendingDelivery)) ∨
  (s = .PendingDelivery ∧ (t = .Completed ∨ t = .Refunded))

instance (s t : ListingStatus) : Decidable (Edge s t) := by
  unfold Edge; infer_instance

/-- Progress measure of a listing status along the state machine. -/
def statusRank : ListingStatus → Nat
  | .None => 0
  | .Active => 1
  | .Cancelled => 2
  | .Expired => 2
  | .PendingDelivery => 2
  | .Completed => 3
  | .Refunded => 3


/-! ### Concrete states used by the witnesses -/

/-- A freshly created auction: native token, window `[10, 100)`,
reserve 5, increment 1, anti-sniping window 20, extension 7. -/
def aW1 : AuctionState :=
  ⟨{ token := 0, startTime := 10, endTime := 100, extensionWindow := 20,
     extensionSeconds := 7, reservePrice := 5, minBidIncrement := 1,
     highestBidder := 0, highestBid := 0, active := true, canceled := false,
     closed := false, proceedsClaimed := false, winner := 0, winningBid := 0 },
   fun _ => 0⟩

/-- `aW1` after bidder 4 bids 5 at time 10 (outside the window). -/
def aW2 : AuctionState :=
  ⟨{ aW1.a with highestBidder := 4, highestBid := 5 }, fun _ => 0⟩

/-- `aW1` after bidder 4 bids 5 at time 95 (inside the window):
`endTime` extended to 107. -/
def aW3 : AuctionState :=
  ⟨{ aW1.a with highestBidder := 4, highestBid := 5, endTime := 107 }, fun _ => 0⟩

/-- `aW2` closed at time 100: bidder 4 wins at 5. -/
def aW4 : AuctionState :=
  ⟨{ aW2.a with active := false, closed := true, winner := 4, winningBid := 5 },
   fun _ => 0⟩

/-- `aW4` after its winning bid has been swept. -/
def aW5 : AuctionState :=
  ⟨{ aW4.a with proceedsClaimed := true }, fun _ => 0⟩

/-- `aW1` closed at time 100 with no bids: no winner. -/
def aW6 : AuctionState :=
  ⟨{ aW1.a with active := false, closed := true }, fun _ => 0⟩

/-- A freshly created raffle: native token, window `[1, 10)`, ticket
price 5, target 100, at least 1 participant. -/
def rW1 : RaffleState :=
  ⟨{ raffle0 with
      token := 0, startTime := 1, endTime := 10, ticketPrice := 5,
      targetAmount := 100, minParticipants := 1 },
   [], fun _ => 0, fun _ => 0, fun _ => false⟩

/-- `rW1` after buyer 7 buys one ticket at time 1. -/
def rW2 : RaffleState :=
  ⟨{ rW1.r with participantCount := 1, totalTickets := 1, raised := 5 },
   [7], upd (fun _ => 0) 7 1, upd (fun _ => 0) 7 5, upd (fun _ => false) 7 true⟩

/-- `rW2` closed (unsuccessfully: 5 raised of a 100 target) at time 10. -/
def rW3 : RaffleState :=
  ⟨{ rW2.r with closed := true, successful := false },
   rW2.participants, rW2.tickets, rW2.contributed, rW2.isParticipant⟩

/-- `rW3` after buyer 7 withdraws the 5-unit refund: `raised` still
records 5 while the summed `contributed` column is back to 0. -/
def rW4 : RaffleState :=
  ⟨rW3.r, rW3.participants, rW3.tickets, upd rW3.contributed 7 0, rW3.isParticipant⟩

/-- A raffle that will succeed: ticket price 5, target 10, at least 2
participants, window `[1, 10)`. -/
def rS1 : RaffleState :=
  ⟨{ raffle0 with
      token := 0, startTime := 1, endTime := 10, ticketPrice := 5,
      targetAmount := 10, minParticipants := 2 },
   [], fun _ => 0, fun _ => 0, fun _ => false⟩

/-- `rS1` after buyer 7 buys one ticket at time 1. -/
def rS2 : RaffleState :=
  ⟨{ rS1.r with participantCount := 1, totalTickets := 1, raised := 5 },
   [7], upd (fun _ => 0) 7 1, upd (fun _ => 0) 7 5, upd (fun _ => false) 7 true⟩

/-- `rS2` after buyer 8 buys one ticket at time 1: target reached. -/
def rS3 : RaffleState :=
  ⟨{ rS2.r with participantCount := 2, totalTickets := 2, raised := 10 },
   [7, 8], upd rS2.tickets 8 1, upd rS2.contributed 8 5, upd rS2.isParticipant 8 true⟩

/-- `rS3` closed successfully with seed 0: pick 0 selects buyer 7. -/
def rS4 : RaffleState :=
  ⟨{ rS3.r with closed := true, successful := true, winner := 7 },
   rS3.participants, rS3.tickets, rS3.contributed, rS3.isParticipant⟩

/-- `rS4` after its proceeds were swept. -/
def rS5 : RaffleState :=
  ⟨{ rS4.r with proceedsClaimed := true },
   rS4.participants, rS4.tickets, rS4.contributed, rS4.isParticipant⟩

/-- A fixed-price listing world: seller 2 listing a 100-unit native
item, fee 250 bps to recipient 3, owner 1, arbiter 4. -/
def wC : World :=
  { listing := { seller := 2, buyer := 0, saleType := .FixedPrice, status := .Active,
                 metadataLen := 3, price := 100, token := 0, moduleId := 0,
                 escrowId := 0, startTime := 0, endTime := 0, raffleCommit := 0 },
    auction := AInit, raffle := RInit, vault := VInit,
    protocolFeeBps := 250, feeRecipient := 3, arbiter := 4, owner := 1,
    paused := false, listingNonce := 1 }

/-- `wC` after buyer 5 buys: escrow 11 funded with 100. -/
def wC1 : World :=
  { wC with
    vault := ⟨upd VInit.escrows 11
                { buyer := 5, seller := 2, token := 0, amount := 100, status := .Funded },
              VInit.credits⟩,
    listing := { wC.listing with
                  escrowId := 11, buyer := 5, status := .PendingDelivery } }

/-- `wC1` after the buyer confirms delivery: escrow released, seller 2
credited 98, fee recipient 3 credited 2. -/
def wC2 : World :=
  { wC1 with
    vault := ⟨upd wC1.vault.escrows 11
                { buyer := 5, seller := 2, token := 0, amount := 100, status := .Released },
              upd (upd (fun _ _ => 0) 2 (upd (fun _ => 0) 0 98)) 3 (upd (fun _ => 0) 0 2)⟩,
    listing := { wC1.listing with status := .Completed } }

/-- `wC2` after seller 2 withdraws the 98-unit payout. -/
def wC3 : World :=
  { wC2 with
    vault := ⟨wC2.vault.escrows,
              upd wC2.vault.credits 2 (upd (wC2.vault.credits 2) 0 0)⟩ }

/-- `wC3` after the owner withdraws the 2-unit fee for recipient 3. -/
def wC4 : World :=
  { wC3 with
    vault := ⟨wC3.vault.escrows,
              upd wC3.vault.credits 3 (upd (wC3.vault.credits 3) 0 0)⟩ }

/-- An auction listing world over the standing-bid auction `aW2`
(moduleId 7), ready to be closed. -/
def wA : World :=
  { listing := { seller := 2, buyer := 0, saleType := .Auction, status := .Active,
                 metadataLen := 3, price := 0, token := 0, moduleId := 7,
                 escrowId := 0, startTime := 10, endTime := 100, raffleCommit := 0 },
    auction := aW2, raffle := RInit, vault := VInit,
    protocolFeeBps := 250, feeRecipient := 3, arbiter := 4, owner := 1,
    paused := false, listingNonce := 1 }

/-- `wA` after `closeAuction` at time 100 with escrow id 11: bidder 4
won at 5, escrow funded, listing pending delivery. -/
def wA1 : World :=
  { wA with
    auction := aW5,
    vault := ⟨upd VInit.escrows 11
                { buyer := 4, seller := 2, token := 0, amount := 5, status := .Funded },
              VInit.credits⟩,
    listing := { wA.listing with
                  escrowId := 11, price := 5, status := .PendingDelivery,
                  buyer := 4 } }

/-! ## Helper lemmas: auction module -/

/-- Full characterization of an accepted `placeBid` call: the
preconditions it checked, the returned `newEndTime`, and the new state. -/
theorem placeBid_ok_spec {s s' : AuctionState} {b amt v now ne : Nat}
    (h : placeBid s b amt v now = .ok (s', ne)) :
    (s.a.active = true ∧ s.a.closed = false ∧ s.a.canceled = false ∧
     s.a.startTime ≤ now ∧ now < s.a.endTime ∧
     (if s.a.highestBid = 0 then s.a.reservePrice else
        s.a.highestBid + s.a.minBidIncrement) ≤ amt ∧
     (if s.a.token = 0 then v = amt else v = 0)) ∧
    ne = (if 0 < s.a.extensionSeconds ∧ 0 < s.a.extensionWindow ∧
            s.a.endTime - now ≤ s.a.extensionWindow
          then s.a.endTime + s.a.extensionSeconds else s.a.endTime) ∧
    s' = ⟨{ s.a with highestBidder := b, highestBid := amt, endTime := ne },
          if 0 < s.a.highestBid then
            upd s.pendingReturns s.a.highestBidder
              (s.pendingReturns s.a.highestBidder + s.a.highestBid)
          else s.pendingReturns⟩ := by
  delta placeBid at h
  by_cases h1 : s.a.active = false ∨ s.a.closed = true
  · rw [if_pos h1] at h
    by_cases h2 : s.a.highestBid = 0 ∧ s.a.highestBidder = 0 ∧ s.a.canceled = false
    · rw [if_pos h2] at h; exact Except.noConfusion h
    · rw [if_neg h2] at h; exact Except.noConfusion h
  rw [if_neg h1] at h
  by_cases h2 : s.a.canceled = true
  · rw [if_pos h2] at h; exact Except.noConfusion h
  rw [if_neg h2] at h
  by_cases h3 : now < s.a.startTime ∨ s.a.endTime ≤ now
  · rw [if_pos h3] at h; exact Except.noConfusion h
  rw [if_neg h3] at h
  by_cases h4 : s.a.highestBid ≠ 0 ∧ U256MAX < s.a.highestBid + s.a.minBidIncrement
  · rw [if_pos h4] at h; exact Except.noConfusion h
  rw [if_neg h4] at h
  by_cases h5 : amt < (if s.a.highestBid = 0 then s.a.reservePrice
      else s.a.highestBid + s.a.minBidIncrement)
  · rw [if_pos h5] at h; exact Except.noConfusion h
  rw [if_neg h5] at h
  by_cases h6 : (if s.a.token = 0 then v ≠ amt else v ≠ 0)
  · rw [if_pos h6] at h; exact Except.noConfusion h
  rw [if_neg h6] at h
  by_cases h7 : 0 < s.a.highestBid ∧
      U256MAX < s.pendingReturns s.a.highestBidder + s.a.highestBid
  · rw [if_pos h7] at h; exact Except.noConfusion h
  rw [if_neg h7] at h
  by_cases h8 : (0 < s.a.extensionSeconds ∧ 0 < s.a.extensionWindow ∧
      s.a.endTime - now ≤ s.a.extensionWindow) ∧
      U64MAX < s.a.endTime + s.a.extensionSeconds
  · rw [if_pos h8] at h; exact Except.noConfusion h
  rw [if_neg h8] at h
  obtain ⟨h', hne⟩ := Prod.mk.injEq .. ▸ (Except.ok.injEq .. ▸ h)
  subst hne
  subst h'
  simp only [not_or, Bool.not_eq_false, Bool.not_eq_true] at h1
  simp only [not_or, not_lt, not_le] at h3
  refine ⟨⟨h1.1, h1.2, by simpa using h2, h3.1, h3.2, not_lt.mp h5, ?_⟩, rfl, rfl⟩
  by_cases ht : s.a.token = 0
  · rw [if_pos ht] at h6 ⊢; exact not_not.mp h6
  · rw [if_neg ht] at h6 ⊢; exact not_not.mp h6

/-- Full characterization of an accepted `createAuction` call. -/
theorem createAuction_ok_spec {s s' : AuctionState} {t st en rp inc ew es : Nat}
    (h : createAuction s t st en rp inc ew es = .ok s') :
    (s.a.active = false ∧ s.a.closed = false ∧ s.a.canceled = false ∧
     s.a.highestBid = 0 ∧ s.a.highestBidder = 0 ∧ st < en) ∧
    s' = ⟨{ s.a with
            token := t, startTime := st, endTime := en, reservePrice := rp,
            minBidIncrement := inc, extensionWindow := ew, extensionSeconds := es,
            active := true }, s.pendingReturns⟩ := by
  delta createAuction at h
  by_cases h1 : s.a.active = true ∨ s.a.closed = true ∨ s.a.canceled = true ∨
      s.a.highestBid ≠ 0 ∨ s.a.highestBidder ≠ 0
  · rw [if_pos h1] at h; exact Except.noConfusion h
  rw [if_neg h1] at h
  by_cases h2 : en ≤ st
  · rw [if_pos h2] at h; exact Except.noConfusion h
  rw [if_neg h2] at h
  replace h := (Except.ok.injEq .. ▸ h)
  subst h
  simp only [not_or, Bool.not_eq_true, not_ne_iff] at h1
  exact ⟨⟨h1.1, h1.2.1, h1.2.2.1, h1.2.2.2.1, h1.2.2.2.2, not_le.mp h2⟩, rfl⟩

/-- Full characterization of an accepted `closeAuction` (module) call. -/
theorem closeAuctionM_ok_spec {s s' : AuctionState} {now : Nat}
    (h : closeAuctionM s now = .ok s') :
    (s.a.active = true ∧ s.a.closed = false ∧ s.a.canceled = false ∧
     s.a.endTime ≤ now) ∧
    ((s.a.highestBidder ≠ 0 ∧ s.a.reservePrice ≤ s.a.highestBid) →
      s' = ⟨{ s.a with
              active := false, closed := true,
              winner := s.a.highestBidder, winningBid := s.a.highestBid },
            s.pendingReturns⟩) ∧
    (¬ (s.a.highestBidder ≠ 0 ∧ s.a.reservePrice ≤ s.a.highestBid) →
      s'.a = { s.a with
                active := false, closed := true,
                highestBidder := 0, highestBid := 0 } ∧
      s'.pendingReturns =
        (if 0 < s.a.highestBid then
          upd s.pendingReturns s.a.highestBidder
            (s.pendingReturns s.a.highestBidder + s.a.highestBid)
        else s.pendingReturns)) := by
  delta closeAuctionM at h
  by_cases h1 : s.a.highestBid = 0 ∧ s.a.highestBidder = 0 ∧ s.a.active = false ∧
      s.a.closed = false ∧ s.a.canceled = false
  · rw [if_pos h1] at h; exact Except.noConfusion h
  rw [if_neg h1] at h
  by_cases h2 : s.a.active = false ∨ s.a.closed = true
  · rw [if_pos h2] at h; exact Except.noConfusion h
  rw [if_neg h2] at h
  by_cases h3 : s.a.canceled = true
  · rw [if_pos h3] at h; exact Except.noConfusion h
  rw [if_neg h3] at h
  by_cases h4 : now < s.a.endTime
  · rw [if_pos h4] at h; exact Except.noConfusion h
  rw [if_neg h4] at h
  simp only [not_or, Bool.not_eq_false, Bool.not_eq_true] at h2
  by_cases h5 : s.a.highestBidder ≠ 0 ∧ s.a.reservePrice ≤ s.a.highestBid
  · rw [if_pos h5] at h
    replace h := (Except.ok.injEq .. ▸ h)
    subst h
    exact ⟨⟨h2.1, h2.2, by simpa using h3, not_lt.mp h4⟩,
           fun _ => rfl, fun hf => absurd h5 hf⟩
  rw [if_neg h5] at h
  by_cases h6 : 0 < s.a.highestBid
  · rw [if_pos h6] at h
    by_cases h7 : U256MAX < s.pendingReturns s.a.highestBidder + s.a.highestBid
    · rw [if_pos h7] at h; exact Except.noConfusion h
    rw [if_neg h7] at h
    replace h := (Except.ok.injEq .. ▸ h)
    subst h
    exact ⟨⟨h2.1, h2.2, by simpa using h3, not_lt.mp h4⟩,
           fun hs => absurd hs h5, fun _ => ⟨rfl, (if_pos h6).symm⟩⟩
  rw [if_neg h6] at h
  replace h := (Except.ok.injEq .. ▸ h)
  subst h
  exact ⟨⟨h2.1, h2.2, by simpa using h3, not_lt.mp h4⟩,
         fun hs => absurd hs h5, fun _ => ⟨rfl, (if_neg h6).symm⟩⟩

/-- Full characterization of an accepted `cancelAuction` call. -/
theorem cancelAuction_ok_spec {s s' : AuctionState}
    (h : cancelAuction s = .ok s') :
    (s.a.closed = false ∧ s.a.canceled = false) ∧
    ((0 < s.a.highestBid ∧ s.a.highestBidder ≠ 0) →
      s' = ⟨{ s.a with
              active := false, canceled := true,
              highestBidder := 0, highestBid := 0 },
            upd s.pendingReturns s.a.highestBidder
              (s.pendingReturns s.a.highestBidder + s.a.highestBid)⟩) ∧
    (¬ (0 < s.a.highestBid ∧ s.a.highestBidder ≠ 0) →
      s' = ⟨{ s.a with active := false, canceled := true }, s.pendingReturns⟩) := by
  delta cancelAuction at h
  by_cases h1 : s.a.highestBid = 0 ∧ s.a.highestBidder = 0 ∧ s.a.active = false ∧
      s.a.closed = false ∧ s.a.canceled = false
  · rw [if_pos h1] at h; exact Except.noConfusion h
  rw [if_neg h1] at h
  by_cases h2 : s.a.closed = true
  · rw [if_pos h2] at h; exact Except.noConfusion h
  rw [if_neg h2] at h
  by_cases h3 : s.a.canceled = true
  · rw [if_pos h3] at h; exact Except.noConfusion h
  rw [if_neg h3] at h
  by_cases h4 : 0 < s.a.highestBid ∧ s.a.highestBidder ≠ 0
  · rw [if_pos h4] at h
    by_cases h5 : U256MAX < s.pendingReturns s.a.highestBidder + s.a.highestBid
    · rw [if_pos h5] at h; exact Except.noConfusion h
    rw [if_neg h5] at h
    replace h := (Except.ok.injEq .. ▸ h)
    subst h
    exact ⟨⟨by simpa using h2, by simpa using h3⟩, fun _ => rfl, fun hf => absurd h4 hf⟩
  rw [if_neg h4] at h
  replace h := (Except.ok.injEq .. ▸ h)
  subst h
  exact ⟨⟨by simpa using h2, by simpa using h3⟩, fun hc => absurd hc h4, fun _ => rfl⟩

/-- Full characterization of an accepted `withdrawRefund` (auction) call. -/
theorem auWithdrawRefund_ok_spec {s s' : AuctionState} {bidder amt : Nat}
    (h : auWithdrawRefund s bidder = .ok (s', amt)) :
    s.pendingReturns bidder ≠ 0 ∧ amt = s.pendingReturns bidder ∧
    s' = ⟨s.a, upd s.pendingReturns bidder 0⟩ := by
  delta auWithdrawRefund at h
  by_cases h1 : s.pendingReturns bidder = 0
  · rw [if_pos h1] at h; exact Except.noConfusion h
  rw [if_neg h1] at h
  obtain ⟨h', hamt⟩ := Prod.mk.injEq .. ▸ (Except.ok.injEq .. ▸ h)
  subst hamt
  subst h'
  exact ⟨h1, rfl, rfl⟩

/-- Full characterization of an accepted `sweepWinningBid` call. -/
theorem sweepWinningBid_ok_spec {s s' : AuctionState} {dst amt tk : Nat}
    (h : sweepWinningBid s dst = .ok (s', amt, tk)) :
    (s.a.closed = true ∧ s.a.canceled = false ∧ s.a.proceedsClaimed = false) ∧
    s' = ⟨{ s.a with proceedsClaimed := true }, s.pendingReturns⟩ ∧
    tk = s.a.token ∧
    amt = (if s.a.winner = 0 ∨ s.a.winningBid = 0 then 0 else s.a.winningBid) := by
  delta sweepWinningBid at h
  by_cases h1 : s.a.closed = false
  · rw [if_pos h1] at h; exact Except.noConfusion h
  rw [if_neg h1] at h
  by_cases h2 : s.a.canceled = true
  · rw [if_pos h2] at h; exact Except.noConfusion h
  rw [if_neg h2] at h
  by_cases h3 : s.a.proceedsClaimed = true
  · rw [if_pos h3] at h; exact Except.noConfusion h
  rw [if_neg h3] at h
  by_cases h4 : s.a.winner = 0 ∨ s.a.winningBid = 0
  · rw [if_pos h4] at h
    obtain ⟨h', hrest⟩ := Prod.mk.injEq .. ▸ (Except.ok.injEq .. ▸ h)
    obtain ⟨hamt, htk⟩ := Prod.mk.injEq .. ▸ hrest
    subst h'; subst hamt; subst htk
    exact ⟨⟨by simpa using h1, by simpa using h2, by simpa using h3⟩, rfl, rfl,
           (if_pos h4).symm⟩
  rw [if_neg h4] at h
  obtain ⟨h', hrest⟩ := Prod.mk.injEq .. ▸ (Except.ok.injEq .. ▸ h)
  obtain ⟨hamt, htk⟩ := Prod.mk.injEq .. ▸ hrest
  subst h'; subst hamt; subst htk
  exact ⟨⟨by simpa using h1, by simpa using h2, by simpa using h3⟩, rfl, rfl,
         (if_neg h4).symm⟩

/-- A sweep on an already-claimed auction slot fails with
`ProceedsAlreadyClaimed` (and, the call erroring, has no effect). -/
theorem sweepWinningBid_claimed_err {s : AuctionState} {dst : Nat}
    (hc : s.a.closed = true) (hnc : s.a.canceled = false)
    (hp : s.a.proceedsClaimed = true) :
    sweepWinningBid s dst = .error .ProceedsAlreadyClaimed := by
  delta sweepWinningBid
  rw [if_neg (by simp [hc]), if_neg (by simp [hnc]), if_pos hp]

theorem AInv_init : AInv AInit := by
  constructor
  · exact Or.inl rfl
  · exact fun _ => ⟨rfl, rfl⟩

theorem AStep_inv {s s' : AuctionState} (hi : AInv s) (hs : AStep s s') : AInv s' := by
  obtain ⟨hbid, hwin⟩ := hi
  cases hs with
  | create h =>
    obtain ⟨⟨_, hcl, _, hb0, _, _⟩, hst⟩ := createAuction_ok_spec h
    subst hst
    exact ⟨Or.inl hb0, fun _ => hwin hcl⟩
  | @bid b amt v now ne h =>
    obtain ⟨⟨_, hcl, _, _, _, hreq, _⟩, hne, hst⟩ := placeBid_ok_spec h
    have hle : s.a.reservePrice ≤ amt := by
      by_cases hb : s.a.highestBid = 0
      · rw [if_pos hb] at hreq; exact hreq
      · rw [if_neg hb] at hreq
        rcases hbid with h0 | hr
        · exact absurd h0 hb
        · omega
    subst hst
    exact ⟨Or.inr hle, fun _ => hwin hcl⟩
  | close h =>
    obtain ⟨_, hsucc, hfail⟩ := closeAuctionM_ok_spec h
    by_cases hc : s.a.highestBidder ≠ 0 ∧ s.a.reservePrice ≤ s.a.highestBid
    · have hst := hsucc hc
      subst hst
      exact ⟨Or.inr hc.2, fun hcl => by simp at hcl⟩
    · obtain ⟨ha, _⟩ := hfail hc
      refine ⟨Or.inl ?_, fun hcl => ?_⟩
      · rw [ha]
      · rw [ha] at hcl; simp at hcl
  | cancel h =>
    obtain ⟨⟨hcl, _⟩, hyes, hno⟩ := cancelAuction_ok_spec h
    by_cases hc : 0 < s.a.highestBid ∧ s.a.highestBidder ≠ 0
    · have hst := hyes hc
      subst hst
      exact ⟨Or.inl rfl, fun _ => hwin hcl⟩
    · have hst := hno hc
      subst hst
      exact ⟨hbid, fun _ => hwin hcl⟩
  | withdraw h =>
    obtain ⟨_, _, hst⟩ := auWithdrawRefund_ok_spec h
    subst hst
    exact ⟨hbid, hwin⟩
  | sweep h =>
    obtain ⟨⟨hcl, _, _⟩, hst, _, _⟩ := sweepWinningBid_ok_spec h
    subst hst
    exact ⟨hbid, fun hcl' => by simp [hcl] at hcl'⟩

theorem AReach_inv {s : AuctionState} (hr : AReach s) : AInv s := by
  induction hr with
  | refl => exact AInv_init
  | tail _ hstep ih => exact AStep_inv ih hstep

/-- Completeness counterpart of `placeBid_ok_spec`: when every guard is
satisfied the bid is accepted, with the exact resulting state. -/
theorem placeBid_accepts {s : AuctionState} {b amt v now : Nat}
    (ha : s.a.active = true) (hcl : s.a.closed = false) (hcan : s.a.canceled = false)
    (ht1 : s.a.startTime ≤ now) (ht2 : now < s.a.endTime)
    (hreq : (if s.a.highestBid = 0 then s.a.reservePrice
      else s.a.highestBid + s.a.minBidIncrement) ≤ amt)
    (hval : if s.a.token = 0 then v = amt else v = 0)
    (hov1 : s.a.highestBid ≠ 0 → s.a.highestBid + s.a.minBidIncrement ≤ U256MAX)
    (hov2 : 0 < s.a.highestBid →
      s.pendingReturns s.a.highestBidder + s.a.highestBid ≤ U256MAX)
    (hov3 : s.a.endTime + s.a.extensionSeconds ≤ U64MAX) :
    placeBid s b amt v now =
      .ok (⟨{ s.a with
              highestBidder := b, highestBid := amt,
              endTime := if 0 < s.a.extensionSeconds ∧ 0 < s.a.extensionWindow ∧
                  s.a.endTime - now ≤ s.a.extensionWindow
                then s.a.endTime + s.a.extensionSeconds else s.a.endTime },
            if 0 < s.a.highestBid then
              upd s.pendingReturns s.a.highestBidder
                (s.pendingReturns s.a.highestBidder + s.a.highestBid)
            else s.pendingReturns⟩,
           if 0 < s.a.extensionSeconds ∧ 0 < s.a.extensionWindow ∧
               s.a.endTime - now ≤ s.a.extensionWindow
             then s.a.endTime + s.a.extensionSeconds else s.a.endTime) := by
  delta placeBid
  rw [if_neg (by simp [ha, hcl]),
      if_neg (by simp [hcan]),
      if_neg (by omega),
      if_neg (by rintro ⟨hb, hov⟩; exact absurd (hov1 hb) (by omega)),
      if_neg (by omega),
      if_neg (by by_cases ht : s.a.token = 0
                 · rw [if_pos ht] at hval ⊢; omega
                 · rw [if_neg ht] at hval ⊢; omega),
      if_neg (by rintro ⟨hb, hov⟩; exact absurd (hov2 hb) (by omega)),
      if_neg (by rintro ⟨_, hov⟩; omega)]

/-- C2: a bid is accepted only when the auction is live in time and the
amount clears the reserve (first bid) or the increment-raised standing
bid; on reachable auction states the latter is `max reservePrice
(highestBid + minBidIncrement)`. -/
theorem claim_C2 {s s' : AuctionState} {bidder amount msgValue now ne : Nat}
    (hr : AReach s)
    (h : placeBid s bidder amount msgValue now = .ok (s', ne)) :
    s.a.active = true ∧ s.a.closed = false ∧ s.a.canceled = false ∧
    s.a.startTime ≤ now ∧ now < s.a.endTime ∧
    (if s.a.highestBid = 0 then s.a.reservePrice ≤ amount
     else max s.a.reservePrice (s.a.highestBid + s.a.minBidIncrement) ≤ amount) := by
  obtain ⟨⟨ha, hcl, hca, h1, h2, hreq, _⟩, _, _⟩ := placeBid_ok_spec h
  refine ⟨ha, hcl, hca, h1, h2, ?_⟩
  by_cases hb : s.a.highestBid = 0
  · rw [if_pos hb] at hreq ⊢; exact hreq
  · rw [if_neg hb] at hreq ⊢
    obtain ⟨hbid, _⟩ := AReach_inv hr
    rcases hbid with h0 | hres
    · exact absurd h0 hb
    · exact max_le (by omega) hreq

/-- Witness for C2: the concrete reachable auction `aW1` accepts a first
bid of 5 at time 10, and the theorem's guards hold there. -/
theorem claim_C2_witness :
    aW1.a.active = true ∧ aW1.a.closed = false ∧ aW1.a.canceled = false ∧
    aW1.a.startTime ≤ 10 ∧ 10 < aW1.a.endTime ∧
    (if aW1.a.highestBid = 0 then aW1.a.reservePrice ≤ 5
     else max aW1.a.reservePrice (aW1.a.highestBid + aW1.a.minBidIncrement) ≤ 5) :=
  claim_C2
    (Relation.ReflTransGen.single
      (AStep.create (show createAuction AInit 0 10 100 5 1 20 7 = .ok aW1 from rfl)))
    (show placeBid aW1 4 5 5 10 = .ok (aW2, 100) from rfl)

/-- C6: an accepted bid placed while `endTime − now ≤ extensionWindow`
with `extensionSeconds > 0` advances `endTime` by exactly
`extensionSeconds`; and the new state accepts a further late bid that
extends again (the rule carries no repetition counter, so this repeats
on every successive late bid, bounded only by the 64-bit time range
that checked arithmetic enforces). -/
theorem claim_C6 {s s' : AuctionState} {bidder amount msgValue now ne : Nat}
    (h : placeBid s bidder amount msgValue now = .ok (s', ne))
    (hwin : s.a.endTime - now ≤ s.a.extensionWindow)
    (hsec : 0 < s.a.extensionSeconds) :
    (s'.a.endTime = s.a.endTime + s.a.extensionSeconds ∧
     ne = s.a.endTime + s.a.extensionSeconds) ∧
    (∀ bidder2 amount2 msgValue2 now2,
      s.a.startTime ≤ now2 → now2 < s'.a.endTime →
      s'.a.endTime - now2 ≤ s.a.extensionWindow →
      (if amount = 0 then s.a.reservePrice else amount + s.a.minBidIncrement) ≤ amount2 →
      (if s.a.token = 0 then msgValue2 = amount2 else msgValue2 = 0) →
      (amount ≠ 0 → amount + s.a.minBidIncrement ≤ U256MAX) →
      (0 < amount → s'.pendingReturns bidder + amount ≤ U256MAX) →
      s'.a.endTime + s.a.extensionSeconds ≤ U64MAX →
      ∃ s2 ne2, placeBid s' bidder2 amount2 msgValue2 now2 = .ok (s2, ne2) ∧
        s2.a.endTime = s'.a.endTime + s.a.extensionSeconds) := by
  obtain ⟨⟨ha, hcl, hca, ht1, ht2, _, _⟩, hne, hst⟩ := placeBid_ok_spec h
  have hewin : 0 < s.a.extensionWindow := by omega
  have hcond : 0 < s.a.extensionSeconds ∧ 0 < s.a.extensionWindow ∧
      s.a.endTime - now ≤ s.a.extensionWindow := ⟨hsec, hewin, hwin⟩
  rw [if_pos hcond] at hne
  subst hst
  subst hne
  refine ⟨⟨rfl, rfl⟩, ?_⟩
  intro b2 a2 v2 n2 hn1 hn2 hw2 hr2 hv2 hov1 hov2 hov3
  refine ⟨_, _, placeBid_accepts ha hcl hca hn1 hn2 hr2 hv2
    (fun hb => hov1 hb) (fun hb => hov2 hb) hov3, ?_⟩
  have hcond2 : 0 < s.a.extensionSeconds ∧ 0 < s.a.extensionWindow ∧
      (s.a.endTime + s.a.extensionSeconds) - n2 ≤ s.a.extensionWindow :=
    ⟨hsec, hewin, hw2⟩
  exact if_pos hcond2

/-- Witness for C6: on `aW1`, a bid of 5 at time 95 (5 seconds before
the end, inside the 20-second window) moves `endTime` from 100 to 107. -/
theorem claim_C6_witness :
    (aW3.a.endTime = aW1.a.endTime + aW1.a.extensionSeconds ∧
     107 = aW1.a.endTime + aW1.a.extensionSeconds) ∧
    (∀ bidder2 amount2 msgValue2 now2,
      aW1.a.startTime ≤ now2 → now2 < aW3.a.endTime →
      aW3.a.endTime - now2 ≤ aW1.a.extensionWindow →
      (if 5 = 0 then aW1.a.reservePrice else 5 + aW1.a.minBidIncrement) ≤ amount2 →
      (if aW1.a.token = 0 then msgValue2 = amount2 else msgValue2 = 0) →
      (5 ≠ 0 → 5 + aW1.a.minBidIncrement ≤ U256MAX) →
      (0 < 5 → aW3.pendingReturns 4 + 5 ≤ U256MAX) →
      aW3.a.endTime + aW1.a.extensionSeconds ≤ U64MAX →
      ∃ s2 ne2, placeBid aW3 bidder2 amount2 msgValue2 now2 = .ok (s2, ne2) ∧
        s2.a.endTime = aW3.a.endTime + aW1.a.extensionSeconds) :=
  claim_C6 (show placeBid aW1 4 5 5 95 = .ok (aW3, 107) from rfl)
    (by decide) (by decide)

/-- C7: the module's `closeAuction` requires the end time reached on a
live auction; it records a winner exactly when a highest bidder exists
whose bid meets the reserve, and otherwise credits the standing bid
back and leaves no winner. -/
theorem claim_C7 {s s' : AuctionState} {now : Nat} (hr : AReach s)
    (h : closeAuctionM s now = .ok s') :
    (s.a.endTime ≤ now ∧ s.a.active = true ∧ s.a.closed = false ∧
     s.a.canceled = false) ∧
    ((s.a.highestBidder ≠ 0 ∧ s.a.reservePrice ≤ s.a.highestBid) →
      s'.a.winner = s.a.highestBidder ∧ s'.a.winningBid = s.a.highestBid) ∧
    (¬ (s.a.highestBidder ≠ 0 ∧ s.a.reservePrice ≤ s.a.highestBid) →
      s'.a.winner = 0 ∧ s'.a.winningBid = 0 ∧
      (0 < s.a.highestBid →
        s'.pendingReturns s.a.highestBidder =
          s.pendingReturns s.a.highestBidder + s.a.highestBid)) := by
  obtain ⟨⟨ha, hcl, hca, hend⟩, hsucc, hfail⟩ := closeAuctionM_ok_spec h
  obtain ⟨_, hwin⟩ := AReach_inv hr
  refine ⟨⟨hend, ha, hcl, hca⟩, ?_, ?_⟩
  · intro hc
    have hst := hsucc hc
    subst hst
    exact ⟨rfl, rfl⟩
  · intro hc
    obtain ⟨hA, hpr⟩ := hfail hc
    have h0 := hwin hcl
    refine ⟨?_, ?_, fun hb => ?_⟩
    · rw [hA]; exact h0.1
    · rw [hA]; exact h0.2
    · rw [hpr, if_pos hb, upd_same]

/-- Witness for C7: closing the reachable auction `aW2` (standing bid 5
by bidder 4, reserve 5) at time 100 succeeds with winner 4. -/
theorem claim_C7_witness :
    (aW2.a.endTime ≤ 100 ∧ aW2.a.active = true ∧ aW2.a.closed = false ∧
     aW2.a.canceled = false) ∧
    ((aW2.a.highestBidder ≠ 0 ∧ aW2.a.reservePrice ≤ aW2.a.highestBid) →
      aW4.a.winner = aW2.a.highestBidder ∧ aW4.a.winningBid = aW2.a.highestBid) ∧
    (¬ (aW2.a.highestBidder ≠ 0 ∧ aW2.a.reservePrice ≤ aW2.a.highestBid) →
      aW4.a.winner = 0 ∧ aW4.a.winningBid = 0 ∧
      (0 < aW2.a.highestBid →
        aW4.pendingReturns aW2.a.highestBidder =
          aW2.pendingReturns aW2.a.highestBidder + aW2.a.highestBid)) :=
  claim_C7
    (Relation.ReflTransGen.tail
      (Relation.ReflTransGen.single
        (AStep.create (show createAuction AInit 0 10 100 5 1 20 7 = .ok aW1 from rfl)))
      (AStep.bid (show placeBid aW1 4 5 5 10 = .ok (aW2, 100) from rfl)))
    (show closeAuctionM aW2 100 = .ok aW4 from rfl)

/-! ## Helper lemmas: raffle module -/

/-- Full characterization of an accepted `createRaffle` call. -/
theorem createRaffle_ok_spec {s s' : RaffleState} {t st en tp ta mp : Nat}
    (h : createRaffle s t st en tp ta mp = .ok s') :
    (s.r.startTime = 0 ∧ s.r.raised = 0 ∧ s.r.closed = false ∧
     s.r.canceled = false ∧ st < en ∧ tp ≠ 0 ∧ ta ≠ 0 ∧ mp ≠ 0) ∧
    s' = ⟨{ s.r with
            token := t, startTime := st, endTime := en,
            ticketPrice := tp, targetAmount := ta, minParticipants := mp },
          s.participants, s.tickets, s.contributed, s.isParticipant⟩ := by
  delta createRaffle at h
  by_cases h1 : s.r.startTime ≠ 0 ∨ s.r.raised ≠ 0 ∨ s.r.closed = true ∨
      s.r.canceled = true
  · rw [if_pos h1] at h; exact Except.noConfusion h
  rw [if_neg h1] at h
  by_cases h2 : en ≤ st
  · rw [if_pos h2] at h; exact Except.noConfusion h
  rw [if_neg h2] at h
  by_cases h3 : tp = 0
  · rw [if_pos h3] at h; exact Except.noConfusion h
  rw [if_neg h3] at h
  by_cases h4 : ta = 0
  · rw [if_pos h4] at h; exact Except.noConfusion h
  rw [if_neg h4] at h
  by_cases h5 : mp = 0
  · rw [if_pos h5] at h; exact Except.noConfusion h
  rw [if_neg h5] at h
  replace h := (Except.ok.injEq .. ▸ h)
  subst h
  simp only [not_or, not_ne_iff, Bool.not_eq_true] at h1
  exact ⟨⟨h1.1, h1.2.1, h1.2.2.1, h1.2.2.2, not_le.mp h2, h3, h4, h5⟩, rfl⟩

/-- Full characterization of an accepted `enterRaffle` call. -/
theorem enterRaffle_ok_spec {s s' : RaffleState} {buyer c v now : Nat}
    (h : enterRaffle s buyer c v now = .ok s') :
    (s.r.startTime ≠ 0 ∧ s.r.closed = false ∧ s.r.canceled = false ∧
     s.r.startTime ≤ now ∧ now < s.r.endTime ∧ c ≠ 0 ∧
     (if s.r.token = 0 then v = s.r.ticketPrice * c else v = 0)) ∧
    (s.isParticipant buyer = false →
      s' = ⟨{ s.r with
              participantCount := s.r.participantCount + 1,
              totalTickets := s.r.totalTickets + c,
              raised := s.r.raised + s.r.ticketPrice * c },
            s.participants ++ [buyer],
            upd s.tickets buyer (s.tickets buyer + c),
            upd s.contributed buyer (s.contributed buyer + s.r.ticketPrice * c),
            upd s.isParticipant buyer true⟩) ∧
    (s.isParticipant buyer = true →
      s' = ⟨{ s.r with
              totalTickets := s.r.totalTickets + c,
              raised := s.r.raised + s.r.ticketPrice * c },
            s.participants,
            upd s.tickets buyer (s.tickets buyer + c),
            upd s.contributed buyer (s.contributed buyer + s.r.ticketPrice * c),
            s.isParticipant⟩) := by
  delta enterRaffle at h
  by_cases h1 : s.r.startTime = 0
  · rw [if_pos h1] at h; exact Except.noConfusion h
  rw [if_neg h1] at h
  by_cases h2 : s.r.closed = true
  · rw [if_pos h2] at h; exact Except.noConfusion h
  rw [if_neg h2] at h
  by_cases h3 : s.r.canceled = true
  · rw [if_pos h3] at h; exact Except.noConfusion h
  rw [if_neg h3] at h
  by_cases h4 : now < s.r.startTime ∨ s.r.endTime ≤ now
  · rw [if_pos h4] at h; exact Except.noConfusion h
  rw [if_neg h4] at h
  by_cases h5 : c = 0
  · rw [if_pos h5] at h; exact Except.noConfusion h
  rw [if_neg h5] at h
  by_cases h6 : (if s.r.token = 0 then v ≠ s.r.ticketPrice * c else v ≠ 0)
  · rw [if_pos h6] at h; exact Except.noConfusion h
  rw [if_neg h6] at h
  by_cases h7 : U256MAX < s.r.ticketPrice * c ∨
      U32MAX < s.r.participantCount + 1 ∨
      U256MAX < s.tickets buyer + c ∨
      U256MAX < s.contributed buyer + s.r.ticketPrice * c ∨
      U256MAX < s.r.totalTickets + c ∨
      U256MAX < s.r.raised + s.r.ticketPrice * c
  · rw [if_pos h7] at h; exact Except.noConfusion h
  rw [if_neg h7] at h
  simp only [not_or, not_lt, not_le] at h4
  have hval : (if s.r.token = 0 then v = s.r.ticketPrice * c else v = 0) := by
    by_cases ht : s.r.token = 0
    · rw [if_pos ht] at h6 ⊢; exact not_not.mp h6
    · rw [if_neg ht] at h6 ⊢; exact not_not.mp h6
  by_cases h8 : s.isParticipant buyer = false
  · rw [if_pos h8] at h
    replace h := (Except.ok.injEq .. ▸ h)
    subst h
    exact ⟨⟨h1, by simpa using h2, by simpa using h3, h4.1, h4.2, h5, hval⟩,
           fun _ => rfl, fun hp => by rw [h8] at hp; exact Bool.noConfusion hp⟩
  · rw [if_neg h8] at h
    replace h := (Except.ok.injEq .. ▸ h)
    subst h
    exact ⟨⟨h1, by simpa using h2, by simpa using h3, h4.1, h4.2, h5, hval⟩,
           fun hp => absurd hp h8, fun _ => rfl⟩

/-- Full characterization of an accepted module `closeRaffle` call. -/
theorem closeRaffleM_ok_spec {s s' : RaffleState} {now seed : Nat}
    {succ : Bool} {w ra tk : Nat}
    (h : closeRaffleM s now seed = .ok (s', succ, w, ra, tk)) :
    (s.r.startTime ≠ 0 ∧ s.r.closed = false ∧ s.r.canceled = false ∧
     (s.r.endTime ≤ now ∨ s.r.targetAmount ≤ s.r.raised)) ∧
    ra = s.r.raised ∧ tk = s.r.token ∧
    (succ = true ↔ (s.r.minParticipants ≤ s.r.participantCount ∧
      s.r.targetAmount ≤ s.r.raised ∧ 0 < s.r.totalTickets)) ∧
    (succ = false → w = 0 ∧
      s' = ⟨{ s.r with closed := true, successful := false },
            s.participants, s.tickets, s.contributed, s.isParticipant⟩) ∧
    (succ = true →
      w = selectFrom s.tickets s.participants 0 (seed % s.r.totalTickets) ∧
      s' = ⟨{ s.r with closed := true, successful := true, winner := w },
            s.participants, s.tickets, s.contributed, s.isParticipant⟩) := by
  delta closeRaffleM at h
  by_cases h1 : s.r.startTime = 0
  · rw [if_pos h1] at h; exact Except.noConfusion h
  rw [if_neg h1] at h
  by_cases h2 : s.r.closed = true
  · rw [if_pos h2] at h; exact Except.noConfusion h
  rw [if_neg h2] at h
  by_cases h3 : s.r.canceled = true
  · rw [if_pos h3] at h; exact Except.noConfusion h
  rw [if_neg h3] at h
  by_cases h4 : ¬ (s.r.endTime ≤ now ∨ s.r.targetAmount ≤ s.r.raised)
  · rw [if_pos h4] at h; exact Except.noConfusion h
  rw [if_neg h4] at h
  by_cases h5 : ¬ (s.r.minParticipants ≤ s.r.participantCount ∧
      s.r.targetAmount ≤ s.r.raised ∧ 0 < s.r.totalTickets)
  · rw [if_pos h5] at h
    obtain ⟨hs', hrest⟩ := Prod.mk.injEq .. ▸ (Except.ok.injEq .. ▸ h)
    obtain ⟨hsucc, hrest⟩ := Prod.mk.injEq .. ▸ hrest
    obtain ⟨hw, hrest⟩ := Prod.mk.injEq .. ▸ hrest
    obtain ⟨hra, htk⟩ := Prod.mk.injEq .. ▸ hrest
    subst hs'; subst hsucc; subst hw; subst hra; subst htk
    exact ⟨⟨h1, by simpa using h2, by simpa using h3, not_not.mp h4⟩, rfl, rfl,
           ⟨fun hf => Bool.noConfusion hf, fun hc => absurd hc h5⟩,
           fun _ => ⟨rfl, rfl⟩, fun ht => Bool.noConfusion ht⟩
  · rw [if_neg h5] at h
    obtain ⟨hs', hrest⟩ := Prod.mk.injEq .. ▸ (Except.ok.injEq .. ▸ h)
    obtain ⟨hsucc, hrest⟩ := Prod.mk.injEq .. ▸ hrest
    obtain ⟨hw, hrest⟩ := Prod.mk.injEq .. ▸ hrest
    obtain ⟨hra, htk⟩ := Prod.mk.injEq .. ▸ hrest
    subst hs'; subst hsucc; subst hw; subst hra; subst htk
    exact ⟨⟨h1, by simpa using h2, by simpa using h3, not_not.mp h4⟩, rfl, rfl,
           ⟨fun _ => not_not.mp h5, fun _ => rfl⟩,
           fun hf => Bool.noConfusion hf, fun _ => ⟨rfl, rfl⟩⟩

/-- Full characterization of an accepted `cancelRaffle` call. -/
theorem cancelRaffle_ok_spec {s s' : RaffleState}
    (h : cancelRaffle s = .ok s') :
    (s.r.startTime ≠ 0 ∧ s.r.closed = false) ∧
    s' = ⟨{ s.r with canceled := true, closed := true, successful := false },
          s.participants, s.tickets, s.contributed, s.isParticipant⟩ := by
  delta cancelRaffle at h
  by_cases h1 : s.r.startTime = 0
  · rw [if_pos h1] at h; exact Except.noConfusion h
  rw [if_neg h1] at h
  by_cases h2 : s.r.closed = true
  · rw [if_pos h2] at h; exact Except.noConfusion h
  rw [if_neg h2] at h
  replace h := (Except.ok.injEq .. ▸ h)
  subst h
  exact ⟨⟨h1, by simpa using h2⟩, rfl⟩

/-- Full characterization of an accepted raffle `withdrawRefund` call. -/
theorem raWithdrawRefund_ok_spec {s s' : RaffleState} {buyer amt : Nat}
    (h : raWithdrawRefund s buyer = .ok (s', amt)) :
    (s.r.startTime ≠ 0 ∧ s.r.closed = true ∧ s.r.successful = false ∧
     s.contributed buyer ≠ 0) ∧
    amt = s.contributed buyer ∧
    s' = ⟨s.r, s.participants, s.tickets, upd s.contributed buyer 0,
          s.isParticipant⟩ := by
  delta raWithdrawRefund at h
  by_cases h1 : s.r.startTime = 0
  · rw [if_pos h1] at h; exact Except.noConfusion h
  rw [if_neg h1] at h
  by_cases h2 : s.r.closed = false ∨ s.r.successful = true
  · rw [if_pos h2] at h; exact Except.noConfusion h
  rw [if_neg h2] at h
  by_cases h3 : s.contributed buyer = 0
  · rw [if_pos h3] at h; exact Except.noConfusion h
  rw [if_neg h3] at h
  obtain ⟨hs', hamt⟩ := Prod.mk.injEq .. ▸ (Except.ok.injEq .. ▸ h)
  subst hs'; subst hamt
  simp only [not_or, Bool.not_eq_false, Bool.not_eq_true] at h2
  exact ⟨⟨h1, h2.1, h2.2, h3⟩, rfl, rfl⟩

/-- Full characterization of an accepted `sweepProceeds` call. -/
theorem sweepProceeds_ok_spec {s s' : RaffleState} {dst amt tk : Nat}
    (h : sweepProceeds s dst = .ok (s', amt, tk)) :
    (s.r.closed = true ∧ s.r.canceled = false ∧ s.r.successful = true ∧
     s.r.proceedsClaimed = false) ∧
    amt = s.r.raised ∧ tk = s.r.token ∧
    s' = ⟨{ s.r with proceedsClaimed := true },
          s.participants, s.tickets, s.contributed, s.isParticipant⟩ := by
  delta sweepProceeds at h
  by_cases h1 : s.r.closed = false
  · rw [if_pos h1] at h; exact Except.noConfusion h
  rw [if_neg h1] at h
  by_cases h2 : s.r.canceled = true
  · rw [if_pos h2] at h; exact Except.noConfusion h
  rw [if_neg h2] at h
  by_cases h3 : s.r.successful = false
  · rw [if_pos h3] at h; exact Except.noConfusion h
  rw [if_neg h3] at h
  by_cases h4 : s.r.proceedsClaimed = true
  · rw [if_pos h4] at h; exact Except.noConfusion h
  rw [if_neg h4] at h
  obtain ⟨hs', hrest⟩ := Prod.mk.injEq .. ▸ (Except.ok.injEq .. ▸ h)
  obtain ⟨hamt, htk⟩ := Prod.mk.injEq .. ▸ hrest
  subst hs'; subst hamt; subst htk
  exact ⟨⟨by simpa using h1, by simpa using h2, by simpa using h3,
          by simpa using h4⟩, rfl, rfl, rfl⟩

/-- A sweep on an already-claimed raffle slot fails with
`ProceedsAlreadyClaimed`. -/
theorem sweepProceeds_claimed_err {s : RaffleState} {dst : Nat}
    (hc : s.r.closed = true) (hnc : s.r.canceled = false)
    (hsu : s.r.successful = true) (hp : s.r.proceedsClaimed = true) :
    sweepProceeds s dst = .error .ProceedsAlreadyClaimed := by
  delta sweepProceeds
  rw [if_neg (by simp [hc]), if_neg (by simp [hnc]), if_neg (by simp [hsu]), if_pos hp]

/-! ## List-sum helpers -/

theorem map_upd_not_mem {f : Addr → Nat} {l : List Addr} {b : Addr}
    (hb : b ∉ l) (v : Nat) : l.map (upd f b v) = l.map f := by
  induction l with
  | nil => rfl
  | cons a t ih =>
    have hab : a ≠ b := fun hc => hb (hc ▸ List.mem_cons_self a t)
    have hbt : b ∉ t := fun hc => hb (List.mem_cons_of_mem a hc)
    simp only [List.map_cons, upd, if_neg hab, ih hbt]

theorem sum_map_upd_mem {f : Addr → Nat} {l : List Addr} {b : Addr}
    (hmem : b ∈ l) (hnd : l.Nodup) (c : Nat) :
    (l.map (upd f b (f b + c))).sum = (l.map f).sum + c := by
  induction l with
  | nil => exact absurd hmem (List.not_mem_nil b)
  | cons a t ih =>
    rcases List.mem_cons.mp hmem with hba | hbt
    · subst hba
      have hbt : b ∉ t := (List.nodup_cons.mp hnd).1
      simp only [List.map_cons, List.sum_cons, upd_same, map_upd_not_mem hbt]
      omega
    · have hab : a ≠ b := by
        rintro rfl
        exact (List.nodup_cons.mp hnd).1 hbt
      simp only [List.map_cons, List.sum_cons, upd, if_neg hab,
        ih hbt (List.nodup_cons.mp hnd).2]
      omega

theorem cum_zero (tk : Addr → Nat) (l : List Addr) : cum tk l 0 = 0 := rfl

theorem cum_succ_cons (tk : Addr → Nat) (p : Addr) (rest : List Addr) (i : Nat) :
    cum tk (p :: rest) (i + 1) = tk p + cum tk rest i := by
  simp [cum]

theorem cum_le_succ (tk : Addr → Nat) (l : List Addr) (i : Nat) :
    cum tk l i ≤ cum tk l (i + 1) := by
  induction l generalizing i with
  | nil => simp [cum]
  | cons p rest ih =>
    cases i with
    | zero => simp [cum]
    | succ j =>
      rw [cum_succ_cons, cum_succ_cons]
      exact Nat.add_le_add_left (ih j) _

theorem cum_mono (tk : Addr → Nat) (l : List Addr) {i j : Nat} (hij : i ≤ j) :
    cum tk l i ≤ cum tk l j := by
  induction j with
  | zero => simpa [Nat.le_zero.mp hij]
  | succ k ih =>
    rcases Nat.lt_or_ge i (k + 1) with hlt | hge
    · exact le_trans (ih (Nat.lt_succ_iff.mp hlt)) (cum_le_succ tk l k)
    · have : i = k + 1 := le_antisymm hij hge
      subst this
      exact le_rfl

/-- The selection loop, started at accumulator `acc`, stops at the first
participant whose cumulative ticket count pushes the total past `pick`. -/
theorem selectFrom_go_spec (tk : Addr → Nat) :
    ∀ (l : List Addr) (acc pick : Nat), acc ≤ pick →
    pick < acc + (l.map tk).sum →
    ∃ i, ∃ hi : i < l.length,
      selectFrom tk l acc pick = l.get ⟨i, hi⟩ ∧
      acc + cum tk l i ≤ pick ∧ pick < acc + cum tk l (i + 1) := by
  intro l
  induction l with
  | nil =>
    intro acc pick hle hlt
    simp only [List.map_nil, List.sum_nil, Nat.add_zero] at hlt
    omega
  | cons p rest ih =>
    intro acc pick hle hlt
    by_cases hp : pick < acc + tk p
    · refine ⟨0, Nat.succ_pos _, ?_, ?_, ?_⟩
      · simp [selectFrom, if_pos hp]
      · simpa [cum] using hle
      · simpa [cum_succ_cons, cum_zero] using hp
    · have hle' : acc + tk p ≤ pick := not_lt.mp hp
      have hlt' : pick < (acc + tk p) + (rest.map tk).sum := by
        simp only [List.map_cons, List.sum_cons] at hlt
        omega
      obtain ⟨i, hi, hsel, hlo, hhi⟩ := ih (acc + tk p) pick hle' hlt'
      refine ⟨i + 1, Nat.succ_lt_succ hi, ?_, ?_, ?_⟩
      · simpa [selectFrom, if_neg hp] using hsel
      · rw [cum_succ_cons]; omega
      · rw [cum_succ_cons]; omega

/-! ## Raffle invariants -/

theorem RInv_init : RInv RInit := by
  refine ⟨fun p => ?_, fun p _ => rfl, List.nodup_nil, rfl, rfl, fun _ => ⟨rfl, rfl⟩⟩
  simp [RInit]

theorem RStep_inv {s s' : RaffleState} (hi : RInv s) (hs : RStep s s') : RInv s' := by
  obtain ⟨hI1, hI2, hI3, hI4, hI6, hI7⟩ := hi
  cases hs with
  | create h =>
    obtain ⟨⟨hst0, hr0, _, _, _, _, _, _⟩, hstate⟩ := createRaffle_ok_spec h
    subst hstate
    obtain ⟨ht0, hp0⟩ := hI7 hst0
    exact ⟨hI1, hI2, hI3, hI4, by rw [hr0, ht0, Nat.zero_mul],
           fun _ => ⟨ht0, hp0⟩⟩
  | @enter b c v now h =>
    obtain ⟨⟨hst, _, _, _, _, _, _⟩, hnew, hold⟩ := enterRaffle_ok_spec h
    by_cases hp : s.isParticipant b = false
    · have hstate := hnew hp
      subst hstate
      have hbnot : b ∉ s.participants := fun hc => by
        rw [(hI1 b).mp hc] at hp; exact Bool.noConfusion hp
      have htb : s.tickets b = 0 := hI2 b hp
      refine ⟨?_, ?_, ?_, ?_, ?_, fun h0 => absurd h0 hst⟩
      · intro p
        dsimp only
        by_cases hpb : p = b
        · subst hpb
          simp [upd_same, List.mem_append]
        · rw [upd_other _ _ _ _ hpb]
          simp only [List.mem_append, List.mem_singleton]
          exact ⟨fun hc => (hI1 p).mp (hc.resolve_right hpb),
                 fun hc => Or.inl ((hI1 p).mpr hc)⟩
      · intro p hpf
        dsimp only at hpf ⊢
        by_cases hpb : p = b
        · subst hpb; rw [upd_same] at hpf; exact Bool.noConfusion hpf
        · rw [upd_other _ _ _ _ hpb] at hpf
          rw [upd_other _ _ _ _ hpb]
          exact hI2 p hpf
      · dsimp only
        simp only [List.nodup_append, List.nodup_cons, List.nodup_nil,
          List.disjoint_singleton]
        exact ⟨hI3, ⟨by simp, trivial⟩, by simpa using hbnot⟩
      · dsimp only
        simp only [List.map_append, List.sum_append, List.map_cons, List.map_nil,
          List.sum_cons, List.sum_nil, upd_same, map_upd_not_mem hbnot]
        rw [hI4, htb]
        omega
      · dsimp only
        rw [Nat.add_mul, Nat.mul_comm c, hI6]
    · have hpt : s.isParticipant b = true := by
        cases hbv : s.isParticipant b
        · exact absurd hbv hp
        · rfl
      have hstate := hold hpt
      subst hstate
      have hbmem : b ∈ s.participants := (hI1 b).mpr hpt
      refine ⟨hI1, ?_, hI3, ?_, ?_, fun h0 => absurd h0 hst⟩
      · intro p hpf
        dsimp only at hpf ⊢
        have hpb : p ≠ b := fun hc => by rw [hc, hpt] at hpf; exact Bool.noConfusion hpf
        rw [upd_other _ _ _ _ hpb]
        exact hI2 p hpf
      · dsimp only
        rw [sum_map_upd_mem hbmem hI3 c, hI4]
      · dsimp only
        rw [Nat.add_mul, Nat.mul_comm c, hI6]
  | @close now seed res h =>
    obtain ⟨succ, w0, ra0, tk0⟩ := res
    obtain ⟨_, _, _, _, hfail, hsucc⟩ := closeRaffleM_ok_spec h
    cases hsb : succ with
    | false =>
      obtain ⟨_, hstate⟩ := hfail hsb
      subst hstate
      exact ⟨hI1, hI2, hI3, hI4, hI6, fun h0 => hI7 h0⟩
    | true =>
      obtain ⟨_, hstate⟩ := hsucc hsb
      subst hstate
      exact ⟨hI1, hI2, hI3, hI4, hI6, fun h0 => hI7 h0⟩
  | cancel h =>
    obtain ⟨_, hstate⟩ := cancelRaffle_ok_spec h
    subst hstate
    exact ⟨hI1, hI2, hI3, hI4, hI6, fun h0 => hI7 h0⟩
  | withdraw h =>
    obtain ⟨_, _, hstate⟩ := raWithdrawRefund_ok_spec h
    subst hstate
    exact ⟨hI1, hI2, hI3, hI4, hI6, fun h0 => hI7 h0⟩
  | sweep h =>
    obtain ⟨_, _, _, hstate⟩ := sweepProceeds_ok_spec h
    subst hstate
    exact ⟨hI1, hI2, hI3, hI4, hI6, fun h0 => hI7 h0⟩

theorem RReach_inv {s : RaffleState} (hr : RReach s) : RInv s := by
  induction hr with
  | refl => exact RInv_init
  | tail _ hstep ih => exact RStep_inv ih hstep

theorem RStepNR_toRStep {s s' : RaffleState} (h : RStepNR s s') : RStep s s' := by
  cases h with
  | create h => exact RStep.create h
  | enter h => exact RStep.enter h
  | close h => exact RStep.close h
  | cancel h => exact RStep.cancel h
  | sweep h => exact RStep.sweep h

theorem RReachNR_toRReach {s : RaffleState} (hr : RReachNR s) : RReach s := by
  induction hr with
  | refl => exact Relation.ReflTransGen.refl
  | tail _ hstep ih => exact Relation.ReflTransGen.tail ih (RStepNR_toRStep hstep)

theorem RInvC_init : RInvC RInit :=
  ⟨fun _ _ => rfl, rfl⟩

theorem RStepNR_invC {s s' : RaffleState} (hi : RInv s) (hic : RInvC s)
    (hs : RStepNR s s') : RInvC s' := by
  obtain ⟨hI1, hI2, hI3, _, _, _⟩ := hi
  obtain ⟨hC1, hC2⟩ := hic
  cases hs with
  | create h =>
    obtain ⟨_, hstate⟩ := createRaffle_ok_spec h
    subst hstate
    exact ⟨hC1, hC2⟩
  | @enter b c v now h =>
    obtain ⟨_, hnew, hold⟩ := enterRaffle_ok_spec h
    by_cases hp : s.isParticipant b = false
    · have hstate := hnew hp
      subst hstate
      have hbnot : b ∉ s.participants := fun hc => by
        rw [(hI1 b).mp hc] at hp; exact Bool.noConfusion hp
      have hcb : s.contributed b = 0 := hC1 b hp
      constructor
      · intro p hpf
        dsimp only at hpf ⊢
        by_cases hpb : p = b
        · subst hpb; rw [upd_same] at hpf; exact Bool.noConfusion hpf
        · rw [upd_other _ _ _ _ hpb] at hpf
          rw [upd_other _ _ _ _ hpb]
          exact hC1 p hpf
      · dsimp only
        simp only [List.map_append, List.sum_append, List.map_cons, List.map_nil,
          List.sum_cons, List.sum_nil, upd_same, map_upd_not_mem hbnot]
        rw [hC2]
        omega
    · have hpt : s.isParticipant b = true := by
        cases hbv : s.isParticipant b
        · exact absurd hbv hp
        · rfl
      have hstate := hold hpt
      subst hstate
      have hbmem : b ∈ s.participants := (hI1 b).mpr hpt
      constructor
      · intro p hpf
        dsimp only at hpf ⊢
        have hpb : p ≠ b := fun hc => by rw [hc, hpt] at hpf; exact Bool.noConfusion hpf
        rw [upd_other _ _ _ _ hpb]
        exact hC1 p hpf
      · dsimp only
        rw [sum_map_upd_mem hbmem hI3 (s.r.ticketPrice * c), hC2]
  | @close now seed res h =>
    obtain ⟨succ, w0, ra0, tk0⟩ := res
    obtain ⟨_, _, _, _, hfail, hsucc⟩ := closeRaffleM_ok_spec h
    cases hsb : succ with
    | false =>
      obtain ⟨_, hstate⟩ := hfail hsb
      subst hstate
      exact ⟨hC1, hC2⟩
    | true =>
      obtain ⟨_, hstate⟩ := hsucc hsb
      subst hstate
      exact ⟨hC1, hC2⟩
  | cancel h =>
    obtain ⟨_, hstate⟩ := cancelRaffle_ok_spec h
    subst hstate
    exact ⟨hC1, hC2⟩
  | sweep h =>
    obtain ⟨_, _, _, hstate⟩ := sweepProceeds_ok_spec h
    subst hstate
    exact ⟨hC1, hC2⟩

theorem RReachNR_invC {s : RaffleState} (hr : RReachNR s) : RInvC s := by
  induction hr with
  | refl => exact RInvC_init
  | tail hr' hstep ih =>
    exact RStepNR_invC (RReach_inv (RReachNR_toRReach hr')) ih hstep

/-- C1: the module's `closeRaffle` succeeds on a live raffle only once
`now ≥ endTime` or `raised ≥ targetAmount` (otherwise it errors, with no
effect); it closes successfully iff `participantCount ≥ minParticipants ∧
raised ≥ targetAmount ∧ totalTickets > 0`; and on success the winner is
the first participant, in insertion order, whose accumulated ticket
count exceeds `pick = seed mod totalTickets`. -/
theorem claim_C1 {s s' : RaffleState} {now seed : Nat} {succ : Bool} {w ra tk : Nat}
    (hr : RReach s)
    (h : closeRaffleM s now seed = .ok (s', succ, w, ra, tk)) :
    (s.r.closed = false ∧ s.r.canceled = false ∧
     (s.r.endTime ≤ now ∨ s.r.targetAmount ≤ s.r.raised)) ∧
    (succ = true ↔ (s.r.minParticipants ≤ s.r.participantCount ∧
      s.r.targetAmount ≤ s.r.raised ∧ 0 < s.r.totalTickets)) ∧
    (succ = true →
      ∃ i, ∃ hi : i < s.participants.length,
        w = s.participants.get ⟨i, hi⟩ ∧
        seed % s.r.totalTickets < cum s.tickets s.participants (i + 1) ∧
        ∀ j, j < i → cum s.tickets s.participants (j + 1) ≤ seed % s.r.totalTickets) := by
  obtain ⟨⟨hst, hcl, hca, hcc⟩, hra, htk, hiff, hfail, hsucc⟩ := closeRaffleM_ok_spec h
  refine ⟨⟨hcl, hca, hcc⟩, hiff, ?_⟩
  intro hs
  obtain ⟨hw, hstate⟩ := hsucc hs
  obtain ⟨_, _, _, hI4, _, _⟩ := RReach_inv hr
  have htt : 0 < s.r.totalTickets := (hiff.mp hs).2.2
  have hpick : seed % s.r.totalTickets < (s.participants.map s.tickets).sum := by
    rw [← hI4]; exact Nat.mod_lt _ htt
  obtain ⟨i, hi, hsel, hlo, hhi⟩ := selectFrom_go_spec s.tickets s.participants 0
    (seed % s.r.totalTickets) (Nat.zero_le _) (by simpa using hpick)
  refine ⟨i, hi, by rw [hw, hsel], by simpa using hhi, ?_⟩
  intro j hj
  calc cum s.tickets s.participants (j + 1)
      ≤ cum s.tickets s.participants i := cum_mono _ _ (by omega)
    _ ≤ seed % s.r.totalTickets := by simpa using hlo

/-- Witness for C1: the reachable two-participant raffle `rS3` (two
tickets, target reached) closes successfully with seed 0 selecting
participant 7. -/
theorem claim_C1_witness :
    (rS3.r.closed = false ∧ rS3.r.canceled = false ∧
     (rS3.r.endTime ≤ 2 ∨ rS3.r.targetAmount ≤ rS3.r.raised)) ∧
    (true = true ↔ (rS3.r.minParticipants ≤ rS3.r.participantCount ∧
      rS3.r.targetAmount ≤ rS3.r.raised ∧ 0 < rS3.r.totalTickets)) ∧
    (true = true →
      ∃ i, ∃ hi : i < rS3.participants.length,
        7 = rS3.participants.get ⟨i, hi⟩ ∧
        0 % rS3.r.totalTickets < cum rS3.tickets rS3.participants (i + 1) ∧
        ∀ j, j < i → cum rS3.tickets rS3.participants (j + 1) ≤ 0 % rS3.r.totalTickets) :=
  claim_C1
    (Relation.ReflTransGen.tail
      (Relation.ReflTransGen.tail
        (Relation.ReflTransGen.single
          (RStep.create (show createRaffle RInit 0 1 10 5 10 2 = .ok rS1 from rfl)))
        (RStep.enter (show enterRaffle rS1 7 1 5 1 = .ok rS2 from rfl)))
      (RStep.enter (show enterRaffle rS2 8 1 5 1 = .ok rS3 from rfl)))
    (show closeRaffleM rS3 2 0 = .ok (rS4, true, 7, 10, 0) from rfl)

/-- C5 counterexample: after the reachable trace create → enter →
unsuccessful close → `withdrawRefund`, the state `rW4` still has
`raised = 5` while the per-participant contributed amounts sum to 0, so
the claimed invariant fails on a reachable state. -/
theorem claim_C5_counterexample :
    RReach rW4 ∧
    ¬ (rW4.r.totalTickets = (rW4.participants.map rW4.tickets).sum ∧
       rW4.r.raised = (rW4.participants.map rW4.contributed).sum ∧
       rW4.r.raised = rW4.r.totalTickets * rW4.r.ticketPrice) := by
  constructor
  · exact Relation.ReflTransGen.tail
      (Relation.ReflTransGen.tail
        (Relation.ReflTransGen.tail
          (Relation.ReflTransGen.single
            (RStep.create (show createRaffle RInit 0 1 10 5 100 1 = .ok rW1 from rfl)))
          (RStep.enter (show enterRaffle rW1 7 1 5 1 = .ok rW2 from rfl)))
        (RStep.close (show closeRaffleM rW2 10 0 = .ok (rW3, false, 0, 5, 0) from rfl)))
      (RStep.withdraw (show raWithdrawRefund rW3 7 = .ok (rW4, 5) from rfl))
  · rintro ⟨_, habs, _⟩
    have h1 : rW4.r.raised = 5 := rfl
    have h2 : (rW4.participants.map rW4.contributed).sum = 0 := rfl
    omega

/-- C5 (amended): in every reachable raffle state `totalTickets` equals
the sum of the per-participant ticket counts and `raised = totalTickets
× ticketPrice`; and `raised` equals the sum of the per-participant
contributed amounts in every state reached without a `withdrawRefund`
call (a refund withdrawal zeroes the buyer's contributed amount while
leaving `raised` unchanged). -/
theorem claim_C5_amended :
    (∀ s : RaffleState, RReach s →
      s.r.totalTickets = (s.participants.map s.tickets).sum ∧
      s.r.raised = s.r.totalTickets * s.r.ticketPrice) ∧
    (∀ s : RaffleState, RReachNR s →
      s.r.raised = (s.participants.map s.contributed).sum) := by
  constructor
  · intro s hr
    obtain ⟨_, _, _, hI4, hI6, _⟩ := RReach_inv hr
    exact ⟨hI4, hI6⟩
  · intro s hr
    exact (RReachNR_invC hr).2

/-- Witness for C5 (amended): the invariants evaluated on the concrete
reachable state `rW2` (one participant holding one 5-unit ticket). -/
theorem claim_C5_witness :
    (rW2.r.totalTickets = (rW2.participants.map rW2.tickets).sum ∧
     rW2.r.raised = rW2.r.totalTickets * rW2.r.ticketPrice) ∧
    rW2.r.raised = (rW2.participants.map rW2.contributed).sum :=
  ⟨claim_C5_amended.1 rW2
    (Relation.ReflTransGen.tail
      (Relation.ReflTransGen.single
        (RStep.create (show createRaffle RInit 0 1 10 5 100 1 = .ok rW1 from rfl)))
      (RStep.enter (show enterRaffle rW1 7 1 5 1 = .ok rW2 from rfl))),
   claim_C5_amended.2 rW2
    (Relation.ReflTransGen.tail
      (Relation.ReflTransGen.single
        (RStepNR.create (show createRaffle RInit 0 1 10 5 100 1 = .ok rW1 from rfl)))
      (RStepNR.enter (show enterRaffle rW1 7 1 5 1 = .ok rW2 from rfl)))⟩

/-- C9: sweeps are one-time: a second `sweepWinningBid` or
`sweepProceeds` after a successful one fails with
`ProceedsAlreadyClaimed` (an error leaves the state untouched, so
nothing is transferred), and `sweepWinningBid` on an auction closed
without a winner returns zero without erroring, marking the slot
claimed. -/
theorem claim_C9 :
    (∀ (s s' : AuctionState) (dst amt tk dst2 : Nat),
      sweepWinningBid s dst = .ok (s', amt, tk) →
      sweepWinningBid s' dst2 = .error .ProceedsAlreadyClaimed) ∧
    (∀ (s : AuctionState) (dst : Nat),
      s.a.closed = true → s.a.canceled = false → s.a.proceedsClaimed = false →
      s.a.winner = 0 ∨ s.a.winningBid = 0 →
      sweepWinningBid s dst =
        .ok (⟨{ s.a with proceedsClaimed := true }, s.pendingReturns⟩, 0, s.a.token)) ∧
    (∀ (s s' : RaffleState) (dst amt tk dst2 : Nat),
      sweepProceeds s dst = .ok (s', amt, tk) →
      sweepProceeds s' dst2 = .error .ProceedsAlreadyClaimed) := by
  refine ⟨?_, ?_, ?_⟩
  · intro s s' dst amt tk dst2 h
    obtain ⟨⟨hc, hnc, _⟩, hstate, _, _⟩ := sweepWinningBid_ok_spec h
    subst hstate
    exact sweepWinningBid_claimed_err hc hnc rfl
  · intro s dst hc hnc hp hw
    delta sweepWinningBid
    rw [if_neg (by simp [hc]), if_neg (by simp [hnc]), if_neg (by simp [hp]), if_pos hw]
  · intro s s' dst amt tk dst2 h
    obtain ⟨⟨hc, hnc, hsu, _⟩, _, _, hstate⟩ := sweepProceeds_ok_spec h
    subst hstate
    exact sweepProceeds_claimed_err hc hnc hsu rfl

/-- Witness for C9: a second sweep of the swept auction `aW5` and of the
swept raffle `rS5` errors; sweeping the winnerless closed auction `aW6`
returns zero. -/
theorem claim_C9_witness :
    sweepWinningBid aW5 9 = .error .ProceedsAlreadyClaimed ∧
    sweepWinningBid aW6 9 =
      .ok (⟨{ aW6.a with proceedsClaimed := true }, aW6.pendingReturns⟩, 0, aW6.a.token) ∧
    sweepProceeds rS5 9 = .error .ProceedsAlreadyClaimed :=
  ⟨claim_C9.1 aW4 aW5 0 5 0 9 (show sweepWinningBid aW4 0 = .ok (aW5, 5, 0) from rfl),
   claim_C9.2.1 aW6 9 (by decide) (by decide) (by decide) (Or.inl (by decide)),
   claim_C9.2.2 rS4 rS5 0 10 0 9 (show sweepProceeds rS4 0 = .ok (rS5, 10, 0) from rfl)⟩

/-- C10: on the successful branch the selection loop always assigns a
winner: `pick < totalTickets` and (reachable-state invariant)
`totalTickets` is the sum of the participants' ticket counts, so some
cumulative count exceeds `pick`; the winner is therefore a member of the
participant list, and is nonzero whenever every entrant is. -/
theorem claim_C10 {s s' : RaffleState} {now seed : Nat} {succ : Bool} {w ra tk : Nat}
    (hr : RReach s)
    (h : closeRaffleM s now seed = .ok (s', succ, w, ra, tk))
    (hs : succ = true) :
    w ∈ s.participants ∧ w = s'.r.winner ∧
    ((∀ p ∈ s.participants, p ≠ 0) → w ≠ 0) := by
  obtain ⟨_, _, _, hiff, _, hsucc⟩ := closeRaffleM_ok_spec h
  obtain ⟨hw, hstate⟩ := hsucc hs
  obtain ⟨_, _, _, hI4, _, _⟩ := RReach_inv hr
  have htt : 0 < s.r.totalTickets := (hiff.mp hs).2.2
  have hpick : seed % s.r.totalTickets < (s.participants.map s.tickets).sum := by
    rw [← hI4]; exact Nat.mod_lt _ htt
  obtain ⟨i, hi, hsel, _, _⟩ := selectFrom_go_spec s.tickets s.participants 0
    (seed % s.r.totalTickets) (Nat.zero_le _) (by simpa using hpick)
  have hmem : w ∈ s.participants := by
    rw [hw, hsel]; exact List.get_mem _ _ _
  refine ⟨hmem, ?_, fun hnz => hnz w hmem⟩
  rw [hstate]

/-- Witness for C10: closing the reachable raffle `rS3` with seed 0
yields winner 7, a member of the (all-nonzero) participant list. -/
theorem claim_C10_witness :
    7 ∈ rS3.participants ∧ 7 = rS4.r.winner ∧
    ((∀ p ∈ rS3.participants, p ≠ 0) → 7 ≠ 0) :=
  claim_C10
    (Relation.ReflTransGen.tail
      (Relation.ReflTransGen.tail
        (Relation.ReflTransGen.single
          (RStep.create (show createRaffle RInit 0 1 10 5 10 2 = .ok rS1 from rfl)))
        (RStep.enter (show enterRaffle rS1 7 1 5 1 = .ok rS2 from rfl)))
      (RStep.enter (show enterRaffle rS2 8 1 5 1 = .ok rS3 from rfl)))
    (show closeRaffleM rS3 2 0 = .ok (rS4, true, 7, 10, 0) from rfl) rfl

/-! ## Helper lemmas: vault and registry -/

/-- Characterization of an accepted (spec-modelled) `createEscrow`. -/
theorem vCreateEscrow_ok_spec {v v' : VaultState} {id b sl tk amt : Nat}
    (h : vCreateEscrow v id b sl tk amt = .ok v') :
    ((v.escrows id).status = .None ∧ amt ≠ 0 ∧ b ≠ 0 ∧ sl ≠ 0) ∧
    v' = ⟨upd v.escrows id
            { buyer := b, seller := sl, token := tk, amount := amt, status := .Funded },
          v.credits⟩ := by
  delta vCreateEscrow at h
  by_cases h1 : (v.escrows id).status ≠ EscrowStatus.None
  · rw [if_pos h1] at h; exact Except.noConfusion h
  rw [if_neg h1] at h
  by_cases h2 : amt = 0
  · rw [if_pos h2] at h; exact Except.noConfusion h
  rw [if_neg h2] at h
  by_cases h3 : b = 0 ∨ sl = 0
  · rw [if_pos h3] at h; exact Except.noConfusion h
  rw [if_neg h3] at h
  replace h := (Except.ok.injEq .. ▸ h)
  subst h
  simp only [not_or] at h3
  exact ⟨⟨not_not.mp h1, h2, h3.1, h3.2⟩, rfl⟩

/-- Listing effect of an accepted `createListing`. -/
theorem regCreateListing_spec {w w' : World}
    {sender metadataLen price token now : Nat} {st : SaleType}
    (h : regCreateListing w sender metadataLen price token st now = .ok w') :
    w.listing.seller = 0 ∧ w'.listing.seller = sender ∧
    w'.listing.status = .Active := by
  delta regCreateListing at h
  by_cases h1 : w.paused = true
  · rw [if_pos h1] at h; exact Except.noConfusion h
  rw [if_neg h1] at h
  by_cases h2 : metadataLen = 0
  · rw [if_pos h2] at h; exact Except.noConfusion h
  rw [if_neg h2] at h
  by_cases h3 : st = SaleType.FixedPrice ∧ price = 0
  · rw [if_pos h3] at h; exact Except.noConfusion h
  rw [if_neg h3] at h
  by_cases h4 : w.listing.seller ≠ 0
  · rw [if_pos h4] at h; exact Except.noConfusion h
  rw [if_neg h4] at h
  replace h := (Except.ok.injEq .. ▸ h)
  subst h
  exact ⟨not_not.mp h4, rfl, rfl⟩

/-- Listing effect of an accepted `cancelListing`. -/
theorem regCancelListing_spec {w w' : World} {sender : Nat}
    (h : regCancelListing w sender = .ok w') :
    w.listing.seller ≠ 0 ∧ w'.listing.seller = w.listing.seller ∧
    w.listing.status = .Active ∧ w'.listing.status = .Cancelled := by
  delta regCancelListing at h
  by_cases h1 : w.paused = true
  · rw [if_pos h1] at h; exact Except.noConfusion h
  rw [if_neg h1] at h
  by_cases h2 : w.listing.seller = 0
  · rw [if_pos h2] at h; exact Except.noConfusion h
  rw [if_neg h2] at h
  by_cases h3 : sender ≠ w.listing.seller
  · rw [if_pos h3] at h; exact Except.noConfusion h
  rw [if_neg h3] at h
  by_cases h4 : w.listing.status ≠ ListingStatus.Active
  · rw [if_pos h4] at h; exact Except.noConfusion h
  rw [if_neg h4] at h
  by_cases h5 : w.listing.saleType = SaleType.Auction ∧ w.listing.moduleId ≠ 0
  · rw [if_pos h5] at h
    rcases hca : cancelAuction w.auction with e | a1
    · rw [hca] at h; exact Except.noConfusion h
    · rw [hca] at h
      replace h := (Except.ok.injEq .. ▸ h)
      subst h
      exact ⟨h2, rfl, not_not.mp h4, rfl⟩
  rw [if_neg h5] at h
  by_cases h6 : w.listing.saleType = SaleType.Raffle ∧ w.listing.moduleId ≠ 0
  · rw [if_pos h6] at h
    rcases hcr : cancelRaffle w.raffle with e | r1
    · rw [hcr] at h; exact Except.noConfusion h
    · rw [hcr] at h
      replace h := (Except.ok.injEq .. ▸ h)
      subst h
      exact ⟨h2, rfl, not_not.mp h4, rfl⟩
  rw [if_neg h6] at h
  replace h := (Except.ok.injEq .. ▸ h)
  subst h
  exact ⟨h2, rfl, not_not.mp h4, rfl⟩

/-- Listing effect of an accepted `openAuction`. -/
theorem regOpenAuction_spec {w w' : World}
    {sender st en rp inc ew es aid : Nat}
    (h : regOpenAuction w sender st en rp inc ew es aid = .ok w') :
    w.listing.seller ≠ 0 ∧ w'.listing.seller = w.listing.seller ∧
    w'.listing.status = w.listing.status := by
  delta regOpenAuction at h
  by_cases h1 : w.paused = true
  · rw [if_pos h1] at h; exact Except.noConfusion h
  rw [if_neg h1] at h
  by_cases h2 : w.listing.seller = 0
  · rw [if_pos h2] at h; exact Except.noConfusion h
  rw [if_neg h2] at h
  by_cases h3 : sender ≠ w.listing.seller
  · rw [if_pos h3] at h; exact Except.noConfusion h
  rw [if_neg h3] at h
  by_cases h4 : w.listing.status ≠ ListingStatus.Active
  · rw [if_pos h4] at h; exact Except.noConfusion h
  rw [if_neg h4] at h
  by_cases h5 : w.listing.saleType ≠ SaleType.Auction
  · rw [if_pos h5] at h; exact Except.noConfusion h
  rw [if_neg h5] at h
  by_cases h6 : w.listing.moduleId ≠ 0
  · rw [if_pos h6] at h; exact Except.noConfusion h
  rw [if_neg h6] at h
  by_cases h7 : en ≤ st
  · rw [if_pos h7] at h; exact Except.noConfusion h
  rw [if_neg h7] at h
  rcases hcr : createAuction w.auction w.listing.token st en rp inc ew es with e | a1
  · rw [hcr] at h; exact Except.noConfusion h
  · rw [hcr] at h
    replace h := (Except.ok.injEq .. ▸ h)
    subst h
    exact ⟨h2, rfl, rfl⟩

/-- Listing effect of an accepted `bid`. -/
theorem regBid_spec {w w' : World} {sender amount msgValue now : Nat}
    (h : regBid w sender amount msgValue now = .ok w') :
    w'.listing = w.listing := by
  delta regBid at h
  by_cases h1 : w.paused = true
  · rw [if_pos h1] at h; exact Except.noConfusion h
  rw [if_neg h1] at h
  by_cases h2 : w.listing.seller = 0
  · rw [if_pos h2] at h; exact Except.noConfusion h
  rw [if_neg h2] at h
  by_cases h3 : w.listing.status ≠ ListingStatus.Active
  · rw [if_pos h3] at h; exact Except.noConfusion h
  rw [if_neg h3] at h
  by_cases h4 : w.listing.saleType ≠ SaleType.Auction
  · rw [if_pos h4] at h; exact Except.noConfusion h
  rw [if_neg h4] at h
  by_cases h5 : w.listing.moduleId = 0
  · rw [if_pos h5] at h; exact Except.noConfusion h
  rw [if_neg h5] at h
  by_cases h6 : (if w.listing.token = 0 then msgValue ≠ amount else msgValue ≠ 0)
  · rw [if_pos h6] at h; exact Except.noConfusion h
  rw [if_neg h6] at h
  rcases hpb : placeBid w.auction sender amount
      (if w.listing.token = 0 then amount else 0) now with e | p
  · rw [hpb] at h; exact Except.noConfusion h
  · rw [hpb] at h
    obtain ⟨a1, ne1⟩ := p
    replace h := (Except.ok.injEq .. ▸ h)
    subst h
    rfl

/-- Full characterization of an accepted Registry `closeAuction`. -/
theorem regCloseAuction_full {w w' : World} {now eid : Nat}
    (h : regCloseAuction w now eid = .ok w') :
    (w.paused = false ∧ w.listing.seller ≠ 0 ∧ w.listing.status = .Active ∧
     w.listing.saleType = .Auction ∧ w.listing.moduleId ≠ 0) ∧
    ∃ a1 a2 : AuctionState,
      closeAuctionM w.auction now = .ok a1 ∧
      sweepWinningBid a1 0 =
        .ok (a2, (if a1.a.winner = 0 ∨ a1.a.winningBid = 0 then 0 else a1.a.winningBid),
             a1.a.token) ∧
      ((a1.a.winner = 0 ∨ a1.a.winningBid = 0) →
        w' = { w with
               auction := a2,
               listing := { w.listing with status := .Expired } }) ∧
      (¬ (a1.a.winner = 0 ∨ a1.a.winningBid = 0) →
        ∃ v1, vCreateEscrow w.vault eid a1.a.winner w.listing.seller a1.a.token
            a1.a.winningBid = .ok v1 ∧
          w' = { w with
                 auction := a2, vault := v1,
                 listing := { w.listing with
                               escrowId := eid, price := a1.a.winningBid,
                               status := .PendingDelivery, buyer := a1.a.winner } }) := by
  delta regCloseAuction at h
  by_cases h1 : w.paused = true
  · rw [if_pos h1] at h; exact Except.noConfusion h
  rw [if_neg h1] at h
  by_cases h2 : w.listing.seller = 0
  · rw [if_pos h2] at h; exact Except.noConfusion h
  rw [if_neg h2] at h
  by_cases h3 : w.listing.status ≠ ListingStatus.Active
  · rw [if_pos h3] at h; exact Except.noConfusion h
  rw [if_neg h3] at h
  by_cases h4 : w.listing.saleType ≠ SaleType.Auction
  · rw [if_pos h4] at h; exact Except.noConfusion h
  rw [if_neg h4] at h
  by_cases h5 : w.listing.moduleId = 0
  · rw [if_pos h5] at h; exact Except.noConfusion h
  rw [if_neg h5] at h
  rcases hcm : closeAuctionM w.auction now with e | a1
  · rw [hcm] at h; exact Except.noConfusion h
  rw [hcm] at h
  dsimp only [getOutcome] at h
  rcases hsw : sweepWinningBid a1 0 with e | p
  · rw [hsw] at h; exact Except.noConfusion h
  obtain ⟨a2, proceeds, tk2⟩ := p
  rw [hsw] at h
  dsimp only at h
  obtain ⟨_, _, htk2, hamt⟩ := sweepWinningBid_ok_spec hsw
  subst htk2
  subst hamt
  refine ⟨⟨by simpa using h1, h2, not_not.mp h3, not_not.mp h4, h5⟩, a1, a2, rfl, hsw, ?_, ?_⟩
  · intro hz
    rw [if_pos (Or.inl (by rw [if_pos hz]))] at h
    replace h := (Except.ok.injEq .. ▸ h)
    exact h.symm
  · intro hz
    rw [if_neg ?cond] at h
    case cond =>
      rw [if_neg hz]
      push_neg at hz ⊢
      exact ⟨fun hc => absurd hc hz.2, hz.1, hz.2⟩
    rw [if_neg hz] at h
    rcases hve : vCreateEscrow w.vault eid a1.a.winner w.listing.seller a1.a.token
        a1.a.winningBid with e | v1
    · rw [hve] at h; exact Except.noConfusion h
    · rw [hve] at h
      replace h := (Except.ok.injEq .. ▸ h)
      exact ⟨v1, rfl, h.symm⟩

/-- Listing effect of an accepted Registry `closeRaffle`. -/
theorem regCloseRaffle_spec {w w' : World} {revealHash seed now eid : Nat}
    (h : regCloseRaffle w revealHash seed now eid = .ok w') :
    w.listing.seller ≠ 0 ∧ w'.listing.seller = w.listing.seller ∧
    w.listing.status = .Active ∧
    (w'.listing.status = .Expired ∨ w'.listing.status = .PendingDelivery) := by
  delta regCloseRaffle at h
  by_cases h1 : w.paused = true
  · rw [if_pos h1] at h; exact Except.noConfusion h
  rw [if_neg h1] at h
  by_cases h2 : w.listing.seller = 0
  · rw [if_pos h2] at h; exact Except.noConfusion h
  rw [if_neg h2] at h
  by_cases h3 : w.listing.status ≠ ListingStatus.Active
  · rw [if_pos h3] at h; exact Except.noConfusion h
  rw [if_neg h3] at h
  by_cases h4 : w.listing.saleType ≠ SaleType.Raffle
  · rw [if_pos h4] at h; exact Except.noConfusion h
  rw [if_neg h4] at h
  by_cases h5 : w.listing.moduleId = 0
  · rw [if_pos h5] at h; exact Except.noConfusion h
  rw [if_neg h5] at h
  by_cases h6 : w.listing.raffleCommit = 0
  · rw [if_pos h6] at h; exact Except.noConfusion h
  rw [if_neg h6] at h
  by_cases h7 : revealHash ≠ w.listing.raffleCommit
  · rw [if_pos h7] at h; exact Except.noConfusion h
  rw [if_neg h7] at h
  rcases hcm : closeRaffleM w.raffle now seed with e | p
  · rw [hcm] at h; exact Except.noConfusion h
  obtain ⟨r1, succ, w0, ra0, tk0⟩ := p
  rw [hcm] at h
  dsimp only at h
  by_cases hsb : succ = false
  · rw [if_pos hsb] at h
    replace h := (Except.ok.injEq .. ▸ h)
    subst h
    exact ⟨h2, rfl, not_not.mp h3, Or.inl rfl⟩
  rw [if_neg hsb] at h
  rcases hsw : sweepProceeds r1 0 with e | p2
  · rw [hsw] at h; exact Except.noConfusion h
  obtain ⟨r2, proceeds, tk2⟩ := p2
  rw [hsw] at h
  dsimp only at h
  by_cases hpr : proceeds ≠ ra0
  · rw [if_pos hpr] at h
    replace h := (Except.ok.injEq .. ▸ h)
    subst h
    exact ⟨h2, rfl, not_not.mp h3, Or.inl rfl⟩
  rw [if_neg hpr] at h
  rcases hve : vCreateEscrow w.vault eid w0 w.listing.seller tk0 ra0 with e | v1
  · rw [hve] at h; exact Except.noConfusion h
  · rw [hve] at h
    replace h := (Except.ok.injEq .. ▸ h)
    subst h
    exact ⟨h2, rfl, not_not.mp h3, Or.inr rfl⟩

/-- Listing effect of an accepted Registry `enterRaffle`. -/
theorem regEnterRaffle_spec {w w' : World} {sender ticketCount msgValue now : Nat}
    (h : regEnterRaffle w sender ticketCount msgValue now = .ok w') :
    w'.listing = w.listing := by
  delta regEnterRaffle at h
  by_cases h1 : w.paused = true
  · rw [if_pos h1] at h; exact Except.noConfusion h
  rw [if_neg h1] at h
  by_cases h2 : w.listing.seller = 0
  · rw [if_pos h2] at h; exact Except.noConfusion h
  rw [if_neg h2] at h
  by_cases h3 : w.listing.status ≠ ListingStatus.Active
  · rw [if_pos h3] at h; exact Except.noConfusion h
  rw [if_neg h3] at h
  by_cases h4 : w.listing.saleType ≠ SaleType.Raffle
  · rw [if_pos h4] at h; exact Except.noConfusion h
  rw [if_neg h4] at h
  by_cases h5 : w.listing.moduleId = 0
  · rw [if_pos h5] at h; exact Except.noConfusion h
  rw [if_neg h5] at h
  by_cases h6 : w.listing.token = 0
  · rw [if_pos h6] at h
    rcases he : enterRaffle w.raffle sender ticketCount msgValue now with e | r1
    · rw [he] at h; exact Except.noConfusion h
    · rw [he] at h
      replace h := (Except.ok.injEq .. ▸ h)
      subst h
      rfl
  rw [if_neg h6] at h
  by_cases h7 : msgValue ≠ 0
  · rw [if_pos h7] at h; exact Except.noConfusion h
  rw [if_neg h7] at h
  rcases hq : quoteEntry w.raffle ticketCount with e | q
  · rw [hq] at h; exact Except.noConfusion h
  rw [hq] at h
  dsimp only at h
  rcases he : enterRaffle w.raffle sender ticketCount 0 now with e | r1
  · rw [he] at h; exact Except.noConfusion h
  · rw [he] at h
    replace h := (Except.ok.injEq .. ▸ h)
    subst h
    rfl

/-- Characterization of an accepted `buy`. -/
theorem regBuy_spec {w w' : World} {sender msgValue eid : Nat}
    (h : regBuy w sender msgValue eid = .ok w') :
    (w.listing.seller ≠ 0 ∧ w.listing.status = .Active ∧
     w.listing.saleType = .FixedPrice ∧ w.listing.price ≠ 0) ∧
    ∃ v1, vCreateEscrow w.vault eid sender w.listing.seller w.listing.token
        w.listing.price = .ok v1 ∧
      w' = { w with
             vault := v1,
             listing := { w.listing with
                           escrowId := eid, buyer := sender,
                           status := .PendingDelivery } } := by
  delta regBuy at h
  by_cases h1 : w.paused = true
  · rw [if_pos h1] at h; exact Except.noConfusion h
  rw [if_neg h1] at h
  by_cases h2 : w.listing.seller = 0
  · rw [if_pos h2] at h; exact Except.noConfusion h
  rw [if_neg h2] at h
  by_cases h3 : w.listing.status ≠ ListingStatus.Active
  · rw [if_pos h3] at h; exact Except.noConfusion h
  rw [if_neg h3] at h
  by_cases h4 : w.listing.saleType ≠ SaleType.FixedPrice
  · rw [if_pos h4] at h; exact Except.noConfusion h
  rw [if_neg h4] at h
  by_cases h5 : w.listing.price = 0
  · rw [if_pos h5] at h; exact Except.noConfusion h
  rw [if_neg h5] at h
  by_cases h6 : (if w.listing.token = 0 then msgValue ≠ w.listing.price else msgValue ≠ 0)
  · rw [if_pos h6] at h; exact Except.noConfusion h
  rw [if_neg h6] at h
  rcases hve : vCreateEscrow w.vault eid sender w.listing.seller w.listing.token
      w.listing.price with e | v1
  · rw [hve] at h; exact Except.noConfusion h
  · rw [hve] at h
    replace h := (Except.ok.injEq .. ▸ h)
    exact ⟨⟨h2, not_not.mp h3, not_not.mp h4, h5⟩, v1, rfl, h.symm⟩

/-- Characterization of an accepted `confirmDelivery`. -/
theorem regConfirmDelivery_spec {w w' : World} {sender : Nat}
    (h : regConfirmDelivery w sender = .ok w') :
    (w.listing.seller ≠ 0 ∧ sender = w.listing.buyer ∧
     w.listing.status = .PendingDelivery) ∧
    ∃ v1, vRelease w.vault w.listing.escrowId w.feeRecipient w.protocolFeeBps = .ok v1 ∧
      w' = { w with
             vault := v1,
             listing := { w.listing with status := .Completed } } := by
  delta regConfirmDelivery at h
  by_cases h1 : w.paused = true
  · rw [if_pos h1] at h; exact Except.noConfusion h
  rw [if_neg h1] at h
  by_cases h2 : w.listing.seller = 0
  · rw [if_pos h2] at h; exact Except.noConfusion h
  rw [if_neg h2] at h
  by_cases h3 : sender ≠ w.listing.buyer
  · rw [if_pos h3] at h; exact Except.noConfusion h
  rw [if_neg h3] at h
  by_cases h4 : w.listing.status ≠ ListingStatus.PendingDelivery
  · rw [if_pos h4] at h; exact Except.noConfusion h
  rw [if_neg h4] at h
  rcases hg : vGetEscrow w.vault w.listing.escrowId with e | rec
  · rw [hg] at h; exact Except.noConfusion h
  rw [hg] at h
  dsimp only at h
  rcases hv : vRelease w.vault w.listing.escrowId w.feeRecipient w.protocolFeeBps with e | v1
  · rw [hv] at h; exact Except.noConfusion h
  · rw [hv] at h
    replace h := (Except.ok.injEq .. ▸ h)
    exact ⟨⟨h2, not_not.mp h3, not_not.mp h4⟩, v1, rfl, h.symm⟩

/-- Characterization of an accepted `requestRefund`. -/
theorem regRequestRefund_spec {w w' : World} {sender : Nat}
    (h : regRequestRefund w sender = .ok w') :
    (w.listing.seller ≠ 0 ∧ sender = w.listing.buyer ∧
     w.listing.status = .PendingDelivery) ∧
    ∃ v1, vRefund w.vault w.listing.escrowId = .ok v1 ∧
      w' = { w with
             vault := v1,
             listing := { w.listing with status := .Refunded } } := by
  delta regRequestRefund at h
  by_cases h1 : w.paused = true
  · rw [if_pos h1] at h; exact Except.noConfusion h
  rw [if_neg h1] at h
  by_cases h2 : w.listing.seller = 0
  · rw [if_pos h2] at h; exact Except.noConfusion h
  rw [if_neg h2] at h
  by_cases h3 : sender ≠ w.listing.buyer
  · rw [if_pos h3] at h; exact Except.noConfusion h
  rw [if_neg h3] at h
  by_cases h4 : w.listing.status ≠ ListingStatus.PendingDelivery
  · rw [if_pos h4] at h; exact Except.noConfusion h
  rw [if_neg h4] at h
  rcases hv : vRefund w.vault w.listing.escrowId with e | v1
  · rw [hv] at h; exact Except.noConfusion h
  · rw [hv] at h
    replace h := (Except.ok.injEq .. ▸ h)
    exact ⟨⟨h2, not_not.mp h3, not_not.mp h4⟩, v1, rfl, h.symm⟩

/-- Characterization of an accepted `arbiterRelease`. -/
theorem regArbiterRelease_spec {w w' : World} {sender : Nat}
    (h : regArbiterRelease w sender = .ok w') :
    (sender = w.arbiter ∧ w.listing.status = .PendingDelivery) ∧
    w'.listing.seller = w.listing.seller ∧ w'.listing.status = .Completed := by
  delta regArbiterRelease at h
  by_cases h1 : w.paused = true
  · rw [if_pos h1] at h; exact Except.noConfusion h
  rw [if_neg h1] at h
  by_cases h2 : sender ≠ w.arbiter
  · rw [if_pos h2] at h; exact Except.noConfusion h
  rw [if_neg h2] at h
  by_cases h3 : w.listing.status ≠ ListingStatus.PendingDelivery
  · rw [if_pos h3] at h; exact Except.noConfusion h
  rw [if_neg h3] at h
  rcases hg : vGetEscrow w.vault w.listing.escrowId with e | rec
  · rw [hg] at h; exact Except.noConfusion h
  rw [hg] at h
  dsimp only at h
  rcases hv : vRelease w.vault w.listing.escrowId w.feeRecipient w.protocolFeeBps with e | v1
  · rw [hv] at h; exact Except.noConfusion h
  · rw [hv] at h
    replace h := (Except.ok.injEq .. ▸ h)
    subst h
    exact ⟨⟨not_not.mp h2, not_not.mp h3⟩, rfl, rfl⟩

/-- Characterization of an accepted `arbiterRefund`. -/
theorem regArbiterRefund_spec {w w' : World} {sender : Nat}
    (h : regArbiterRefund w sender = .ok w') :
    (sender = w.arbiter ∧ w.listing.status = .PendingDelivery) ∧
    w'.listing.seller = w.listing.seller ∧ w'.listing.status = .Refunded := by
  delta regArbiterRefund at h
  by_cases h1 : w.paused = true
  · rw [if_pos h1] at h; exact Except.noConfusion h
  rw [if_neg h1] at h
  by_cases h2 : sender ≠ w.arbiter
  · rw [if_pos h2] at h; exact Except.noConfusion h
  rw [if_neg h2] at h
  by_cases h3 : w.listing.status ≠ ListingStatus.PendingDelivery
  · rw [if_pos h3] at h; exact Except.noConfusion h
  rw [if_neg h3] at h
  rcases hv : vRefund w.vault w.listing.escrowId with e | v1
  · rw [hv] at h; exact Except.noConfusion h
  · rw [hv] at h
    replace h := (Except.ok.injEq .. ▸ h)
    subst h
    exact ⟨⟨not_not.mp h2, not_not.mp h3⟩, rfl, rfl⟩

/-- The four withdrawal entry points and the admin setters leave the
listing record untouched. -/
theorem regOther_listing :
    (∀ (w w' : World) (sender token amt : Nat),
      regWithdrawPayout w sender token = .ok (w', amt) → w'.listing = w.listing) ∧
    (∀ (w w' : World) (sender amt : Nat),
      regWithdrawAuctionRefund w sender = .ok (w', amt) → w'.listing = w.listing) ∧
    (∀ (w w' : World) (sender amt : Nat),
      regWithdrawRaffleRefund w sender = .ok (w', amt) → w'.listing = w.listing) ∧
    (∀ (w w' : World) (sender token amt : Nat),
      regWithdrawFees w sender token = .ok (w', amt) → w'.listing = w.listing) ∧
    (∀ (w w' : World) (sender newFeeBps : Nat),
      setProtocolFeeBps w sender newFeeBps = .ok w' → w'.listing = w.listing) ∧
    (∀ (w w' : World) (sender newRecipient : Nat),
      setFeeRecipient w sender newRecipient = .ok w' → w'.listing = w.listing) ∧
    (∀ (w w' : World) (sender newArbiter : Nat),
      setArbiter w sender newArbiter = .ok w' → w'.listing = w.listing) ∧
    (∀ (w w' : World) (sender : Nat),
      regPause w sender = .ok w' → w'.listing = w.listing) ∧
    (∀ (w w' : World) (sender : Nat),
      regUnpause w sender = .ok w' → w'.listing = w.listing) := by
  refine ⟨?_, ?_, ?_, ?_, ?_, ?_, ?_, ?_, ?_⟩
  · intro w w' sender token amt h
    delta regWithdrawPayout at h
    rcases hv : vWithdraw w.vault token sender with e | p
    · rw [hv] at h; exact Except.noConfusion h
    · obtain ⟨v1, a1⟩ := p
      rw [hv] at h
      obtain ⟨hw, _⟩ := Prod.mk.injEq .. ▸ (Except.ok.injEq .. ▸ h)
      subst hw
      rfl
  · intro w w' sender amt h
    delta regWithdrawAuctionRefund at h
    by_cases h1 : w.listing.seller = 0
    · rw [if_pos h1] at h; exact Except.noConfusion h
    rw [if_neg h1] at h
    by_cases h2 : w.listing.saleType ≠ SaleType.Auction
    · rw [if_pos h2] at h; exact Except.noConfusion h
    rw [if_neg h2] at h
    by_cases h3 : w.listing.moduleId = 0
    · rw [if_pos h3] at h; exact Except.noConfusion h
    rw [if_neg h3] at h
    rcases hv : auWithdrawRefund w.auction sender with e | p
    · rw [hv] at h; exact Except.noConfusion h
    · obtain ⟨a1, amt1⟩ := p
      rw [hv] at h
      obtain ⟨hw, _⟩ := Prod.mk.injEq .. ▸ (Except.ok.injEq .. ▸ h)
      subst hw
      rfl
  · intro w w' sender amt h
    delta regWithdrawRaffleRefund at h
    by_cases h1 : w.listing.seller = 0
    · rw [if_pos h1] at h; exact Except.noConfusion h
    rw [if_neg h1] at h
    by_cases h2 : w.listing.saleType ≠ SaleType.Raffle
    · rw [if_pos h2] at h; exact Except.noConfusion h
    rw [if_neg h2] at h
    by_cases h3 : w.listing.moduleId = 0
    · rw [if_pos h3] at h; exact Except.noConfusion h
    rw [if_neg h3] at h
    rcases hv : raWithdrawRefund w.raffle sender with e | p
    · rw [hv] at h; exact Except.noConfusion h
    · obtain ⟨r1, amt1⟩ := p
      rw [hv] at h
      obtain ⟨hw, _⟩ := Prod.mk.injEq .. ▸ (Except.ok.injEq .. ▸ h)
      subst hw
      rfl
  · intro w w' sender token amt h
    delta regWithdrawFees at h
    by_cases h1 : sender ≠ w.owner
    · rw [if_pos h1] at h; exact Except.noConfusion h
    rw [if_neg h1] at h
    rcases hv : vWithdraw w.vault token w.feeRecipient with e | p
    · rw [hv] at h; exact Except.noConfusion h
    · obtain ⟨v1, a1⟩ := p
      rw [hv] at h
      obtain ⟨hw, _⟩ := Prod.mk.injEq .. ▸ (Except.ok.injEq .. ▸ h)
      subst hw
      rfl
  · intro w w' sender newFeeBps h
    delta setProtocolFeeBps at h
    by_cases h1 : sender ≠ w.owner
    · rw [if_pos h1] at h; exact Except.noConfusion h
    rw [if_neg h1] at h
    by_cases h2 : 1000 < newFeeBps
    · rw [if_pos h2] at h; exact Except.noConfusion h
    rw [if_neg h2] at h
    replace h := (Except.ok.injEq .. ▸ h)
    subst h
    rfl
  · intro w w' sender newRecipient h
    delta setFeeRecipient at h
    by_cases h1 : sender ≠ w.owner
    · rw [if_pos h1] at h; exact Except.noConfusion h
    rw [if_neg h1] at h
    by_cases h2 : newRecipient = 0
    · rw [if_pos h2] at h; exact Except.noConfusion h
    rw [if_neg h2] at h
    replace h := (Except.ok.injEq .. ▸ h)
    subst h
    rfl
  · intro w w' sender newArbiter h
    delta setArbiter at h
    by_cases h1 : sender ≠ w.owner
    · rw [if_pos h1] at h; exact Except.noConfusion h
    rw [if_neg h1] at h
    replace h := (Except.ok.injEq .. ▸ h)
    subst h
    rfl
  · intro w w' sender h
    delta regPause at h
    by_cases h1 : sender ≠ w.owner
    · rw [if_pos h1] at h; exact Except.noConfusion h
    rw [if_neg h1] at h
    by_cases h2 : w.paused = true
    · rw [if_pos h2] at h; exact Except.noConfusion h
    rw [if_neg h2] at h
    replace h := (Except.ok.injEq .. ▸ h)
    subst h
    rfl
  · intro w w' sender h
    delta regUnpause at h
    by_cases h1 : sender ≠ w.owner
    · rw [if_pos h1] at h; exact Except.noConfusion h
    rw [if_neg h1] at h
    by_cases h2 : w.paused = false
    · rw [if_pos h2] at h; exact Except.noConfusion h
    rw [if_neg h2] at h
    replace h := (Except.ok.injEq .. ▸ h)
    subst h
    rfl

/-- Listing effect of an accepted `openRaffle`. -/
theorem regOpenRaffle_spec {w w' : World}
    {sender st en tp ta mp commit rid : Nat}
    (h : regOpenRaffle w sender st en tp ta mp commit rid = .ok w') :
    w.listing.seller ≠ 0 ∧ w'.listing.seller = w.listing.seller ∧
    w'.listing.status = w.listing.status := by
  delta regOpenRaffle at h
  by_cases h1 : w.paused = true
  · rw [if_pos h1] at h; exact Except.noConfusion h
  rw [if_neg h1] at h
  by_cases h2 : w.listing.seller = 0
  · rw [if_pos h2] at h; exact Except.noConfusion h
  rw [if_neg h2] at h
  by_cases h3 : sender ≠ w.listing.seller
  · rw [if_pos h3] at h; exact Except.noConfusion h
  rw [if_neg h3] at h
  by_cases h4 : w.listing.status ≠ ListingStatus.Active
  · rw [if_pos h4] at h; exact Except.noConfusion h
  rw [if_neg h4] at h
  by_cases h5 : w.listing.saleType ≠ SaleType.Raffle
  · rw [if_pos h5] at h; exact Except.noConfusion h
  rw [if_neg h5] at h
  by_cases h6 : w.listing.moduleId ≠ 0
  · rw [if_pos h6] at h; exact Except.noConfusion h
  rw [if_neg h6] at h
  by_cases h7 : en ≤ st
  · rw [if_pos h7] at h; exact Except.noConfusion h
  rw [if_neg h7] at h
  by_cases h8 : commit = 0
  · rw [if_pos h8] at h; exact Except.noConfusion h
  rw [if_neg h8] at h
  rcases hcr : createRaffle w.raffle w.listing.token st en tp ta mp with e | r1
  · rw [hcr] at h; exact Except.noConfusion h
  · rw [hcr] at h
    replace h := (Except.ok.injEq .. ▸ h)
    subst h
    exact ⟨h2, rfl, rfl⟩

/-- Every accepted Registry call either leaves the listing's status
unchanged or moves it along one edge of the state machine. -/
theorem regStep_status {w w' : World} (hw : WInv w) (hs : RegStep w w') :
    w'.listing.status = w.listing.status ∨
    Edge w.listing.status w'.listing.status := by
  cases hs with
  | createListing hsnd h =>
    obtain ⟨hz, _, hact⟩ := regCreateListing_spec h
    exact Or.inr (Or.inl ⟨hw hz, hact⟩)
  | cancelListing h =>
    obtain ⟨_, _, hact, hcan⟩ := regCancelListing_spec h
    exact Or.inr (Or.inr (Or.inl ⟨hact, Or.inl hcan⟩))
  | openAuction ha h =>
    exact Or.inl (regOpenAuction_spec h).2.2
  | bid h =>
    exact Or.inl (congrArg Listing.status (regBid_spec h))
  | closeAuction h =>
    obtain ⟨⟨_, _, hact, _, _⟩, a1, a2, _, _, hexp, hesc⟩ := regCloseAuction_full h
    by_cases hz : a1.a.winner = 0 ∨ a1.a.winningBid = 0
    · have hst := hexp hz
      subst hst
      exact Or.inr (Or.inr (Or.inl ⟨hact, Or.inr (Or.inl rfl)⟩))
    · obtain ⟨v1, _, hst⟩ := hesc hz
      subst hst
      exact Or.inr (Or.inr (Or.inl ⟨hact, Or.inr (Or.inr rfl)⟩))
  | openRaffle hrid h =>
    exact Or.inl (regOpenRaffle_spec h).2.2
  | enterRaffle h =>
    exact Or.inl (congrArg Listing.status (regEnterRaffle_spec h))
  | closeRaffle h =>
    obtain ⟨_, _, hact, hdi⟩ := regCloseRaffle_spec h
    rcases hdi with hexp | hpen
    · exact Or.inr (Or.inr (Or.inl ⟨hact, Or.inr (Or.inl hexp)⟩))
    · exact Or.inr (Or.inr (Or.inl ⟨hact, Or.inr (Or.inr hpen)⟩))
  | buy h =>
    obtain ⟨⟨_, hact, _, _⟩, v1, _, hst⟩ := regBuy_spec h
    subst hst
    exact Or.inr (Or.inr (Or.inl ⟨hact, Or.inr (Or.inr rfl)⟩))
  | confirmDelivery h =>
    obtain ⟨⟨_, _, hpd⟩, v1, _, hst⟩ := regConfirmDelivery_spec h
    subst hst
    exact Or.inr (Or.inr (Or.inr ⟨hpd, Or.inl rfl⟩))
  | requestRefund h =>
    obtain ⟨⟨_, _, hpd⟩, v1, _, hst⟩ := regRequestRefund_spec h
    subst hst
    exact Or.inr (Or.inr (Or.inr ⟨hpd, Or.inr rfl⟩))
  | arbiterRelease h =>
    obtain ⟨⟨_, hpd⟩, _, hco⟩ := regArbiterRelease_spec h
    exact Or.inr (Or.inr (Or.inr ⟨hpd, Or.inl hco⟩))
  | arbiterRefund h =>
    obtain ⟨⟨_, hpd⟩, _, hrf⟩ := regArbiterRefund_spec h
    exact Or.inr (Or.inr (Or.inr ⟨hpd, Or.inr hrf⟩))
  | withdrawPayout h =>
    exact Or.inl (congrArg Listing.status (regOther_listing.1 _ _ _ _ _ h))
  | withdrawAuctionRefund h =>
    exact Or.inl (congrArg Listing.status (regOther_listing.2.1 _ _ _ _ h))
  | withdrawRaffleRefund h =>
    exact Or.inl (congrArg Listing.status (regOther_listing.2.2.1 _ _ _ _ h))
  | withdrawFees h =>
    exact Or.inl (congrArg Listing.status (regOther_listing.2.2.2.1 _ _ _ _ _ h))
  | setFeeBps h =>
    exact Or.inl (congrArg Listing.status (regOther_listing.2.2.2.2.1 _ _ _ _ h))
  | setFeeRecip h =>
    exact Or.inl (congrArg Listing.status (regOther_listing.2.2.2.2.2.1 _ _ _ _ h))
  | setArb h =>
    exact Or.inl (congrArg Listing.status (regOther_listing.2.2.2.2.2.2.1 _ _ _ _ h))
  | pause h =>
    exact Or.inl (congrArg Listing.status (regOther_listing.2.2.2.2.2.2.2.1 _ _ _ h))
  | unpause h =>
    exact Or.inl (congrArg Listing.status (regOther_listing.2.2.2.2.2.2.2.2 _ _ _ h))

/-- The listing-slot invariant is preserved by every accepted call. -/
theorem regStep_winv {w w' : World} (hw : WInv w) (hs : RegStep w w') : WInv w' := by
  cases hs with
  | createListing hsnd h =>
    obtain ⟨_, hset, _⟩ := regCreateListing_spec h
    intro h0
    rw [hset] at h0
    exact absurd h0 hsnd
  | cancelListing h =>
    obtain ⟨hnz, hset, _, _⟩ := regCancelListing_spec h
    intro h0
    rw [hset] at h0
    exact absurd h0 hnz
  | openAuction ha h =>
    obtain ⟨hnz, hset, _⟩ := regOpenAuction_spec h
    intro h0
    rw [hset] at h0
    exact absurd h0 hnz
  | bid h =>
    intro h0
    rw [regBid_spec h] at h0 ⊢
    exact hw h0
  | closeAuction h =>
    obtain ⟨⟨_, hnz, _, _, _⟩, a1, a2, _, _, hexp, hesc⟩ := regCloseAuction_full h
    by_cases hz : a1.a.winner = 0 ∨ a1.a.winningBid = 0
    · have hst := hexp hz
      subst hst
      exact fun h0 => absurd h0 hnz
    · obtain ⟨v1, _, hst⟩ := hesc hz
      subst hst
      exact fun h0 => absurd h0 hnz
  | openRaffle hrid h =>
    obtain ⟨hnz, hset, _⟩ := regOpenRaffle_spec h
    intro h0
    rw [hset] at h0
    exact absurd h0 hnz
  | enterRaffle h =>
    intro h0
    rw [regEnterRaffle_spec h] at h0 ⊢
    exact hw h0
  | closeRaffle h =>
    obtain ⟨hnz, hset, _, _⟩ := regCloseRaffle_spec h
    intro h0
    rw [hset] at h0
    exact absurd h0 hnz
  | buy h =>
    obtain ⟨⟨hnz, _, _, _⟩, v1, _, hst⟩ := regBuy_spec h
    subst hst
    exact fun h0 => absurd h0 hnz
  | confirmDelivery h =>
    obtain ⟨⟨hnz, _, _⟩, v1, _, hst⟩ := regConfirmDelivery_spec h
    subst hst
    exact fun h0 => absurd h0 hnz
  | requestRefund h =>
    obtain ⟨⟨hnz, _, _⟩, v1, _, hst⟩ := regRequestRefund_spec h
    subst hst
    exact fun h0 => absurd h0 hnz
  | arbiterRelease h =>
    obtain ⟨⟨_, hpd⟩, hset, _⟩ := regArbiterRelease_spec h
    intro h0
    rw [hset] at h0
    have := hw h0
    rw [this] at hpd
    exact ListingStatus.noConfusion hpd
  | arbiterRefund h =>
    obtain ⟨⟨_, hpd⟩, hset, _⟩ := regArbiterRefund_spec h
    intro h0
    rw [hset] at h0
    have := hw h0
    rw [this] at hpd
    exact ListingStatus.noConfusion hpd
  | withdrawPayout h =>
    intro h0
    rw [regOther_listing.1 _ _ _ _ _ h] at h0 ⊢
    exact hw h0
  | withdrawAuctionRefund h =>
    intro h0
    rw [regOther_listing.2.1 _ _ _ _ h] at h0 ⊢
    exact hw h0
  | withdrawRaffleRefund h =>
    intro h0
    rw [regOther_listing.2.2.1 _ _ _ _ h] at h0 ⊢
    exact hw h0
  | withdrawFees h =>
    intro h0
    rw [regOther_listing.2.2.2.1 _ _ _ _ _ h] at h0 ⊢
    exact hw h0
  | setFeeBps h =>
    intro h0
    rw [regOther_listing.2.2.2.2.1 _ _ _ _ h] at h0 ⊢
    exact hw h0
  | setFeeRecip h =>
    intro h0
    rw [regOther_listing.2.2.2.2.2.1 _ _ _ _ h] at h0 ⊢
    exact hw h0
  | setArb h =>
    intro h0
    rw [regOther_listing.2.2.2.2.2.2.1 _ _ _ _ h] at h0 ⊢
    exact hw h0
  | pause h =>
    intro h0
    rw [regOther_listing.2.2.2.2.2.2.2.1 _ _ _ h] at h0 ⊢
    exact hw h0
  | unpause h =>
    intro h0
    rw [regOther_listing.2.2.2.2.2.2.2.2 _ _ _ h] at h0 ⊢
    exact hw h0

/-- Each state-machine edge strictly increases the progress measure. -/
theorem edge_rank {s t : ListingStatus} (h : Edge s t) :
    statusRank s < statusRank t := by
  rcases h with ⟨hs, ht⟩ | ⟨hs, ht⟩ | ⟨hs, ht⟩
  · subst hs; subst ht; decide
  · subst hs
    rcases ht with ht | ht | ht <;> subst ht <;> decide
  · subst hs
    rcases ht with ht | ht <;> subst ht <;> decide

/-- Along any run of accepted Registry calls the invariant persists and
the status rank never decreases. -/
theorem regReach_rank {w v : World} (hw : WInv w)
    (hr : Relation.ReflTransGen RegStep w v) :
    WInv v ∧ statusRank w.listing.status ≤ statusRank v.listing.status := by
  induction hr with
  | refl => exact ⟨hw, le_rfl⟩
  | tail hsteps hstep ih =>
    obtain ⟨ihW, ihR⟩ := ih
    refine ⟨regStep_winv ihW hstep, ?_⟩
    rcases regStep_status ihW hstep with hsame | hedge
    · rw [hsame]; exact ihR
    · exact le_trans ihR (le_of_lt (edge_rank hedge))

/-- C4: every accepted Registry call moves a listing's status along an
edge of `None → Active → {Cancelled, Expired, PendingDelivery} →
{Completed, Refunded}` or leaves it unchanged; each edge strictly
increases the progress rank; hence once a transition out of a status
has happened, that status never recurs, so no transition is reachable
twice on the same listing. -/
theorem claim_C4 :
    (∀ w w' : World, WInv w → RegStep w w' →
      w'.listing.status = w.listing.status ∨
      Edge w.listing.status w'.listing.status) ∧
    (∀ s t : ListingStatus, Edge s t → statusRank s < statusRank t) ∧
    (∀ w1 w2 v : World, WInv w1 → RegStep w1 w2 →
      w1.listing.status ≠ w2.listing.status →
      Relation.ReflTransGen RegStep w2 v →
      v.listing.status ≠ w1.listing.status) := by
  refine ⟨fun w w' hw hs => regStep_status hw hs, fun s t h => edge_rank h, ?_⟩
  intro w1 w2 v hw hs hne hr hcontra
  have hedge : Edge w1.listing.status w2.listing.status := by
    rcases regStep_status hw hs with hsame | he
    · exact absurd hsame.symm hne
    · exact he
  have hrank := (regReach_rank (regStep_winv hw hs) hr).2
  have hlt := edge_rank hedge
  rw [hcontra] at hrank
  omega

/-- Witness for C4: the `buy` step on the concrete world `wC` moves the
status along the `Active → PendingDelivery` edge, the edge raises the
rank, and the `Active` status never recurs afterwards. -/
theorem claim_C4_witness :
    (wC1.listing.status = wC.listing.status ∨
      Edge wC.listing.status wC1.listing.status) ∧
    statusRank .Active < statusRank .PendingDelivery ∧
    wC1.listing.status ≠ wC.listing.status :=
  ⟨claim_C4.1 wC wC1 (fun h0 => absurd h0 (by decide))
    (RegStep.buy (show regBuy wC 5 100 11 = .ok wC1 from rfl)),
   claim_C4.2.1 .Active .PendingDelivery (by decide),
   claim_C4.2.2 wC wC1 wC1 (fun h0 => absurd h0 (by decide))
    (RegStep.buy (show regBuy wC 5 100 11 = .ok wC1 from rfl)) (by decide)
    Relation.ReflTransGen.refl⟩

/-- C3: on an Active auction listing with an opened module, an accepted
`closeAuction` either (when a qualifying winner exists — a nonzero
highest bidder whose nonzero bid meets the reserve) funds a fresh
escrow with buyer = winner and amount = winning bid and moves the
listing to PendingDelivery, or moves the listing to Expired and leaves
the vault untouched. -/
theorem claim_C3 {w w' : World} {now eid : Nat}
    (hr : AReach w.auction)
    (h : regCloseAuction w now eid = .ok w') :
    (w.listing.status = .Active ∧ w.listing.saleType = .Auction ∧
     w.listing.moduleId ≠ 0) ∧
    ((w.auction.a.highestBidder ≠ 0 ∧
      w.auction.a.reservePrice ≤ w.auction.a.highestBid ∧
      w.auction.a.highestBid ≠ 0) →
      w'.listing.status = .PendingDelivery ∧
      w'.listing.buyer = w.auction.a.highestBidder ∧
      w'.listing.price = w.auction.a.highestBid ∧
      w'.listing.escrowId = eid ∧
      (w.vault.escrows eid).status = .None ∧
      w'.vault.escrows eid =
        { buyer := w.auction.a.highestBidder, seller := w.listing.seller,
          token := w.auction.a.token, amount := w.auction.a.highestBid,
          status := .Funded }) ∧
    (¬ (w.auction.a.highestBidder ≠ 0 ∧
        w.auction.a.reservePrice ≤ w.auction.a.highestBid ∧
        w.auction.a.highestBid ≠ 0) →
      w'.listing.status = .Expired ∧ w'.vault = w.vault) := by
  obtain ⟨⟨_, _, hact, hty, hmod⟩, a1, a2, hcm, hsw, hexp, hesc⟩ := regCloseAuction_full h
  obtain ⟨⟨ha, hcl, hca, hend⟩, hsucc, hfail⟩ := closeAuctionM_ok_spec hcm
  obtain ⟨_, hwin0⟩ := AReach_inv hr
  refine ⟨⟨hact, hty, hmod⟩, ?_, ?_⟩
  · rintro ⟨hb, hres, hnz⟩
    have hs' := hsucc ⟨hb, hres⟩
    have hwina : a1.a.winner = w.auction.a.highestBidder := by rw [hs']
    have hbida : a1.a.winningBid = w.auction.a.highestBid := by rw [hs']
    have htoka : a1.a.token = w.auction.a.token := by rw [hs']
    have hz : ¬ (a1.a.winner = 0 ∨ a1.a.winningBid = 0) := by
      rw [hwina, hbida]
      push_neg
      exact ⟨hb, hnz⟩
    obtain ⟨v1, hve, hst⟩ := hesc hz
    rw [hwina, hbida, htoka] at hve
    obtain ⟨⟨hnone, _, _, _⟩, hv1⟩ := vCreateEscrow_ok_spec hve
    subst hst
    subst hv1
    exact ⟨rfl, hwina, hbida, rfl, hnone, upd_same _ _ _⟩
  · intro hnq
    by_cases hc : w.auction.a.highestBidder ≠ 0 ∧
        w.auction.a.reservePrice ≤ w.auction.a.highestBid
    · have hb0 : w.auction.a.highestBid = 0 := by
        by_contra hb0
        exact hnq ⟨hc.1, hc.2, hb0⟩
      have hs' := hsucc hc
      have hbida : a1.a.winningBid = w.auction.a.highestBid := by rw [hs']
      have hz : a1.a.winner = 0 ∨ a1.a.winningBid = 0 := Or.inr (by rw [hbida, hb0])
      have hst := hexp hz
      subst hst
      exact ⟨rfl, rfl⟩
    · obtain ⟨ha1, _⟩ := hfail hc
      have hz : a1.a.winner = 0 ∨ a1.a.winningBid = 0 :=
        Or.inl (by rw [ha1]; exact (hwin0 hcl).1)
      have hst := hexp hz
      subst hst
      exact ⟨rfl, rfl⟩

/-- Witness for C3: closing the concrete auction listing `wA` (standing
bid 5 by bidder 4, reserve met) funds escrow 11 and moves the listing
to PendingDelivery. -/
theorem claim_C3_witness :
    (wA.listing.status = .Active ∧ wA.listing.saleType = .Auction ∧
     wA.listing.moduleId ≠ 0) ∧
    ((wA.auction.a.highestBidder ≠ 0 ∧
      wA.auction.a.reservePrice ≤ wA.auction.a.highestBid ∧
      wA.auction.a.highestBid ≠ 0) →
      wA1.listing.status = .PendingDelivery ∧
      wA1.listing.buyer = wA.auction.a.highestBidder ∧
      wA1.listing.price = wA.auction.a.highestBid ∧
      wA1.listing.escrowId = 11 ∧
      (wA.vault.escrows 11).status = .None ∧
      wA1.vault.escrows 11 =
        { buyer := wA.auction.a.highestBidder, seller := wA.listing.seller,
          token := wA.auction.a.token, amount := wA.auction.a.highestBid,
          status := .Funded }) ∧
    (¬ (wA.auction.a.highestBidder ≠ 0 ∧
        wA.auction.a.reservePrice ≤ wA.auction.a.highestBid ∧
        wA.auction.a.highestBid ≠ 0) →
      wA1.listing.status = .Expired ∧ wA1.vault = wA.vault) :=
  claim_C3
    (Relation.ReflTransGen.tail
      (Relation.ReflTransGen.single
        (AStep.create (show createAuction AInit 0 10 100 5 1 20 7 = .ok aW1 from rfl)))
      (AStep.bid (show placeBid aW1 4 5 5 10 = .ok (aW2, 100) from rfl)))
    (show regCloseAuction wA 100 11 = .ok wA1 from rfl)

/-- C8: the protocol fee rate is capped at 1000 bps (setting a higher
rate fails); at release the fee is `amount × feeBps / 10000` in integer
arithmetic, the seller is credited `amount − fee` and the fee recipient
the fee; and in the concrete fixed-price run with price 100 and 250 bps
the seller withdraws 98 and the fee recipient 2. -/
theorem claim_C8 :
    (∀ (w w' : World) (sender newFeeBps : Nat),
      setProtocolFeeBps w sender newFeeBps = .ok w' →
      newFeeBps ≤ 1000 ∧ w'.protocolFeeBps = newFeeBps) ∧
    (∀ (w : World) (sender newFeeBps : Nat),
      1000 < newFeeBps → sender = w.owner →
      setProtocolFeeBps w sender newFeeBps = .error .InvalidAmount) ∧
    (∀ (v v' : VaultState) (id feeRecipient feeBps : Nat),
      vRelease v id feeRecipient feeBps = .ok v' →
      feeRecipient ≠ (v.escrows id).seller →
      v'.credits (v.escrows id).seller (v.escrows id).token =
        v.credits (v.escrows id).seller (v.escrows id).token +
          ((v.escrows id).amount - quoteFeeAmount (v.escrows id).amount feeBps) ∧
      v'.credits feeRecipient (v.escrows id).token =
        v.credits feeRecipient (v.escrows id).token +
          quoteFeeAmount (v.escrows id).amount feeBps) ∧
    (quoteFeeAmount 100 250 = 2 ∧ 100 - quoteFeeAmount 100 250 = 98) ∧
    (regBuy wC 5 100 11 = .ok wC1 ∧
     regConfirmDelivery wC1 5 = .ok wC2 ∧
     regWithdrawPayout wC2 2 0 = .ok (wC3, 98) ∧
     regWithdrawFees wC3 1 0 = .ok (wC4, 2)) := by
  refine ⟨?_, ?_, ?_, ⟨rfl, rfl⟩, ⟨rfl, rfl, rfl, rfl⟩⟩
  · intro w w' sender newFeeBps h
    delta setProtocolFeeBps at h
    by_cases h1 : sender ≠ w.owner
    · rw [if_pos h1] at h; exact Except.noConfusion h
    rw [if_neg h1] at h
    by_cases h2 : 1000 < newFeeBps
    · rw [if_pos h2] at h; exact Except.noConfusion h
    rw [if_neg h2] at h
    replace h := (Except.ok.injEq .. ▸ h)
    subst h
    exact ⟨not_lt.mp h2, rfl⟩
  · intro w sender newFeeBps h1 h2
    delta setProtocolFeeBps
    rw [if_neg (fun hne => hne h2), if_pos h1]
  · intro v v' id fr fb h hne
    delta vRelease at h
    by_cases h1 : (v.escrows id).status = EscrowStatus.None
    · rw [if_pos h1] at h; exact Except.noConfusion h
    rw [if_neg h1] at h
    by_cases h2 : (v.escrows id).status ≠ EscrowStatus.Funded
    · rw [if_pos h2] at h; exact Except.noConfusion h
    rw [if_neg h2] at h
    replace h := (Except.ok.injEq .. ▸ h)
    subst h
    constructor
    · dsimp only
      rw [upd_other _ _ _ _ (fun hc => hne hc.symm), upd_same, upd_same]
      rfl
    · dsimp only
      rw [upd_same, upd_same, upd_other _ _ _ _ hne]
      rfl

/-- Witness for C8: the cap at owner-set 300 bps and rejection of 1500
bps on `wC`; the release of the concrete 100-unit escrow at 250 bps
credits seller 2 with 98 and recipient 3 with 2. -/
theorem claim_C8_witness :
    (300 ≤ 1000 ∧ ({ wC with protocolFeeBps := 300 } : World).protocolFeeBps = 300) ∧
    setProtocolFeeBps wC 1 1500 = .error .InvalidAmount ∧
    (wC2.vault.credits (wC1.vault.escrows 11).seller (wC1.vault.escrows 11).token =
      wC1.vault.credits (wC1.vault.escrows 11).seller (wC1.vault.escrows 11).token +
        ((wC1.vault.escrows 11).amount -
          quoteFeeAmount (wC1.vault.escrows 11).amount 250) ∧
     wC2.vault.credits 3 (wC1.vault.escrows 11).token =
      wC1.vault.credits 3 (wC1.vault.escrows 11).token +
        quoteFeeAmount (wC1.vault.escrows 11).amount 250) :=
  ⟨claim_C8.1 wC { wC with protocolFeeBps := 300 } 1 300 rfl,
   claim_C8.2.1 wC 1 1500 (by decide) rfl,
   claim_C8.2.2.1 wC1.vault wC2.vault 11 3 250
     (show vRelease wC1.vault 11 3 250 = .ok wC2.vault from rfl) (by decide)⟩
